import Mathlib

/- Shallow embedding of zrepl's snapshot-monitoring core
   (client/monitor/snapshots.go) together with specification-side
   definitions used to check the natural-language specification of the
   subsystem against the code.

   Conventions of the embedding:
   * machine instants (time.Time) and durations (time.Duration) are Int
     nanoseconds; time.Since(t) is now - t with an explicit now parameter;
   * Go byte-level string prefix matching (strings.HasPrefix) is modelled
     on the character list of a String (strStarts);
   * Go fmt verbs are modelled by string concatenation; the %q verb is
     modelled as surrounding double quotes (escaping of quote characters
     inside the operand is elided, it is immaterial to every claim);
     rendering of a time.Duration as text is abstracted to showDuration;
   * the monitoringplugin.Response sink is modelled writer-style: each
     operation returns the list of (severity, message) updates it sent,
     in order, next to the new checker state;
   * fallible operations return Option or Except String. -/

namespace ZreplMonitor

/- Severity constants of the go-monitoringplugin sink. -/

namespace monitoringplugin

def OK : Nat := 0

def WARNING : Nat := 1

def CRITICAL : Nat := 2

def UNKNOWN : Nat := 3

end monitoringplugin

/-- One status update received by the StatusSink: a severity code and a
free-form message. -/
structure Update where
  code : Nat
  msg : String
deriving Repr, DecidableEq

/-- Snapshot view returned by the inventory: zfs.FilesystemVersion with the
fields the monitor core reads (Name, Creation). -/
structure FilesystemVersion where
  Name : String
  Creation : Int
deriving Repr, DecidableEq

/-- Model of zfs.FilesystemVersion.FullPath for snapshots: dataset@name. -/
def FilesystemVersion.FullPath (v : FilesystemVersion) (fs : String) : String :=
  fs ++ "@" ++ v.Name

/-- Count rule (config.MonitorCount).  The source field Prefix is named pfx
here. -/
structure MonitorCount where
  pfx : String
  Warning : Nat
  Critical : Nat
deriving Repr, DecidableEq

/-- Age rule (config.MonitorCreation); thresholds are time.Duration
nanoseconds.  The source field Prefix is named pfx here. -/
structure MonitorCreation where
  pfx : String
  Warning : Int
  Critical : Int
deriving Repr, DecidableEq

/-- Per-group aggregate (groupItem in the source). -/
structure groupItem where
  Count : Nat
  Oldest : Option FilesystemVersion
  Latest : Option FilesystemVersion
deriving Repr, DecidableEq

instance : Inhabited groupItem := ⟨⟨0, none, none⟩⟩

/-- Byte-level string prefix matching (strings.HasPrefix), modelled on the
character list of the String. -/
def strStarts (p s : String) : Bool := p.data.isPrefixOf s.data

/-- Go fmt %q of a string operand, with escaping elided. -/
def goQuote (s : String) : String := "\"" ++ s ++ "\""

/-- Rendering of a time.Duration as text (Go Duration.String), abstracted:
its exact shape is immaterial to every claim. -/
def showDuration (d : Int) : String := toString d

/-- Go Duration.Truncate(time.Second): round toward zero to a whole second
(Go integer remainder is Int.tmod). -/
def truncSecond (d : Int) : Int := d - Int.tmod d 1000000000

/- groupSnapshots (snapshots.go lines 316-336): one pass over the
snapshots; each snapshot goes to the group of its first matching rule
(empty pattern matches anything), updating count, oldest, latest. -/

/-- One snapshot entering a group: count increment and the strict
Before/After updates of Oldest and Latest from the loop body of
groupSnapshots. -/
def updateGroup (g : groupItem) (s : FilesystemVersion) : groupItem :=
  { Count := g.Count + 1
    Oldest := match g.Oldest with
      | none => some s
      | some o => if s.Creation < o.Creation then some s else some o
    Latest := match g.Latest with
      | none => some s
      | some l => if s.Creation > l.Creation then some s else some l }

/-- Inner loop of groupSnapshots: walk the patterns and the parallel group
list, stop at the first match. -/
def addToGroups : List String → List groupItem → FilesystemVersion → List groupItem
  | [], gs, _ => gs
  | _ :: _, [], _ => []
  | p :: ps, g :: gs, s =>
    if p = "" ∨ strStarts p s.Name then updateGroup g s :: gs
    else g :: addToGroups ps gs s

/-- groupSnapshots from the source: fold every snapshot into the group of
its first matching pattern. -/
def groupSnapshots (snapshots : List FilesystemVersion) (prefixes : List String) :
    List groupItem :=
  snapshots.foldl (fun gs s => addToGroups prefixes gs s)
    (List.replicate prefixes.length ⟨0, none, none⟩)

/-- groupItem.Snapshot from the source: representative by mode. -/
def groupItem.Snapshot (g : groupItem) (oldest : Bool) : Option FilesystemVersion :=
  if oldest then g.Oldest else g.Latest

/- Specification-side definitions for claim C3, written from the claim's
words, to be compared with groupSnapshots. -/

/-- Index of the first pattern matching a snapshot name (empty pattern
matches anything), per the claim's first-match semantics. -/
def firstMatchIdx : List String → String → Option Nat
  | [], _ => none
  | p :: ps, n =>
    if p = "" ∨ strStarts p n then some 0 else (firstMatchIdx ps n).map (· + 1)

/-- Pick the earliest-created of an accumulator and a new snapshot, the
first encountered winning ties (strict replacement). -/
def oldPick : Option FilesystemVersion → FilesystemVersion → Option FilesystemVersion
  | none, s => some s
  | some o, s => if s.Creation < o.Creation then some s else some o

/-- Pick the latest-created of an accumulator and a new snapshot, the first
encountered winning ties (strict replacement). -/
def latPick : Option FilesystemVersion → FilesystemVersion → Option FilesystemVersion
  | none, s => some s
  | some l, s => if s.Creation > l.Creation then some s else some l

/-- First snapshot of minimal creation instant in a list. -/
def minFold (m : List FilesystemVersion) : Option FilesystemVersion :=
  m.foldl oldPick none

/-- First snapshot of maximal creation instant in a list. -/
def maxFold (m : List FilesystemVersion) : Option FilesystemVersion :=
  m.foldl latPick none

/-- Aggregate of one group built directly from the list of its members. -/
def groupOf (m : List FilesystemVersion) : groupItem :=
  ⟨m.length, minFold m, maxFold m⟩

/-- Specification-side grouping: group i holds exactly the snapshots whose
first matching pattern index is i. -/
def specGroups (snapshots : List FilesystemVersion) (prefixes : List String) :
    List groupItem :=
  (List.range prefixes.length).map fun i =>
    groupOf (snapshots.filter fun s => decide (firstMatchIdx prefixes s.Name = some i))

/- Configuration and environment. -/

/-- Monitor rule lists of a job (config.MonitorSnapshots). -/
structure MonitorSnapshots where
  Latest : List MonitorCreation
  Oldest : List MonitorCreation
  Count : List MonitorCount
deriving Repr, DecidableEq

/-- Placeholder property source; only local matters to the monitor core
(zfs.SourceLocal). -/
inductive PropertySource where
  | SourceLocal
  | SourceOther
deriving Repr, DecidableEq

/-- Value and source of the placeholder property of one dataset
(zfs.PropertyValue.GetDetails). -/
structure PropDetails where
  value : String
  source : PropertySource
deriving Repr, DecidableEq

/-- Job variants as the monitor core distinguishes them: filter-driven
(push, snap, source) or root-driven (pull, sink). -/
inductive JobKind where
  | push
  | snap
  | source
  | pull (rootFs : String)
  | sink (rootFs : String)
deriving Repr, DecidableEq

/-- The slice of config.JobEnum the monitor core reads: name, variant,
monitor rule lists, and (for filter jobs) the compiled filesystems filter
as a predicate. -/
structure JobEnum where
  name : String
  kind : JobKind
  monitor : MonitorSnapshots
  filterOk : String → Bool

/-- External collaborators: the zfs inventory as deterministic data.
listed is the zfs list output consumed by datasetsFromFilter; propsByFS the
recursive placeholder-property fetch consumed by datasetsFromRootFs;
snapshotsOf the snapshot enumerator; now the current instant. -/
structure Env where
  listed : List String
  propsByFS : List (String × PropDetails)
  snapshotsOf : String → List FilesystemVersion
  now : Int

/-- The checker state (SnapCheck struct of the source).  The source fields
prefix and datasets are named pfx and datasets (an association list keyed
by dataset name); orderedDatasets is Option to keep the Go nil/non-nil
distinction that gates resolution. -/
structure SnapCheck where
  counts : Bool
  oldest : Bool
  job : String
  pfx : String
  warn : Int
  crit : Int
  countWarn : Nat
  countCrit : Nat
  age : Int
  snapCount : Nat
  snapName : String
  failed : Bool
  datasets : List (String × List FilesystemVersion)
  orderedDatasets : Option (List String)
deriving Repr, DecidableEq

/-- Association-list lookup for the dataset cache. -/
def lookupDs (l : List (String × List FilesystemVersion)) (k : String) :
    Option (List FilesystemVersion) :=
  match l with
  | [] => none
  | (k', v) :: rest => if k' = k then some v else lookupDs rest k

/- Status emission (snapshots.go lines 477-491). -/

/-- The job-name tag prepended by SnapCheck.updateStatus. -/
def jobTag (job : String) : String := "job " ++ goQuote job ++ ": "

/-- updateResponse from the source: record failure for any non-OK severity
and forward the update to the sink. -/
def SnapCheck.updateResponse (self : SnapCheck) (statusCode : Nat) (statusMessage : String) :
    SnapCheck × List Update :=
  ({ self with failed := self.failed || statusCode != monitoringplugin.OK },
    [⟨statusCode, statusMessage⟩])

/-- updateStatus from the source: prepend the job tag to the already
formatted body and pass through updateResponse. -/
def SnapCheck.updateStatus (self : SnapCheck) (statusCode : Nat) (body : String) :
    SnapCheck × List Update :=
  self.updateResponse statusCode (jobTag self.job ++ body)

/-- snapshotType from the source. -/
def SnapCheck.snapshotType (self : SnapCheck) : String :=
  if self.oldest then "oldest" else "latest"

/- Message bodies built by the evaluators. -/

/-- The CRITICAL message of the no-snapshots branch, sent directly to the
sink (note: not through updateStatus). -/
def noSnapsMsg (fsName p : String) : String :=
  goQuote fsName ++ " has no snapshots with prefix " ++ goQuote p

/-- Body of a count-threshold verdict. -/
def countMsg (fsName p : String) (count threshold : Nat) : String :=
  fsName ++ ": " ++ goQuote p ++ " snapshots count: " ++ toString count ++
    " (" ++ toString threshold ++ ")"

/-- Body of an age-threshold verdict. -/
def tooOldMsg (typ fullPath : String) (d threshold : Int) : String :=
  typ ++ " " ++ goQuote fullPath ++ " too old: " ++ goQuote (showDuration d) ++
    " > " ++ goQuote (showDuration threshold)

/- Count mode (snapshots.go lines 246-300, 351-376). -/

/-- applyCountRule from the source.  Returns whether rule evaluation for
this dataset continues, next to the new state and the emitted updates.
The no-snapshots branch calls resp.UpdateStatus directly, bypassing
updateResponse, so it leaves the failed flag untouched. -/
def SnapCheck.applyCountRule (self : SnapCheck) (rule : MonitorCount) (fsName : String)
    (g : groupItem) : Bool × SnapCheck × List Update :=
  if g.Count = 0 ∧ rule.pfx = "" then
    (true, self, [])
  else if g.Count = 0 then
    (false, self, [⟨monitoringplugin.CRITICAL, noSnapsMsg fsName rule.pfx⟩])
  else if g.Count ≥ rule.Critical then
    let r := self.updateStatus monitoringplugin.CRITICAL
      (countMsg fsName rule.pfx g.Count rule.Critical)
    (false, r.1, r.2)
  else if rule.Warning > 0 ∧ g.Count ≥ rule.Warning then
    let r := self.updateStatus monitoringplugin.WARNING
      (countMsg fsName rule.pfx g.Count rule.Warning)
    (false, r.1, r.2)
  else
    (true, { self with snapCount := self.snapCount + g.Count }, [])

/-- The rule loop of checkSnapsCounts: apply each rule to its group, break
at the first rule that stops evaluation. -/
def runCountRules (fsName : String) :
    SnapCheck → List (MonitorCount × groupItem) → SnapCheck × List Update
  | self, [] => (self, [])
  | self, (r, g) :: rest =>
    match self.applyCountRule r fsName g with
    | (true, s1, us) =>
      let r2 := runCountRules fsName s1 rest
      (r2.1, us ++ r2.2)
    | (false, s1, us) => (s1, us)

/-- The snapshots helper: cached list, else lazy synchronous load from the
inventory, populating the cache. -/
def snapshotsF (env : Env) (self : SnapCheck) (fsName : String) :
    SnapCheck × List FilesystemVersion :=
  match lookupDs self.datasets fsName with
  | some snaps => (self, snaps)
  | none =>
    let snaps := env.snapshotsOf fsName
    ({ self with datasets := self.datasets ++ [(fsName, snaps)] }, snaps)

/-- checkSnapsCounts from the source: group the dataset's snapshots by the
rule patterns and run the rules in order. -/
def checkSnapsCounts (env : Env) (self : SnapCheck) (fsName : String)
    (rules : List MonitorCount) : SnapCheck × List Update :=
  let r := snapshotsF env self fsName
  let grouped := groupSnapshots r.2 (rules.map (·.pfx))
  runCountRules fsName r.1 (rules.zip grouped)

/-- overrideCountRules from the source: a non-empty CLI pattern replaces
the configured rules by a singleton; an empty configured list without an
override is a run error. -/
def SnapCheck.overrideCountRules (self : SnapCheck) (rules : List MonitorCount) :
    Except String (List MonitorCount) :=
  if self.pfx ≠ "" then
    .ok [⟨self.pfx, self.countWarn, self.countCrit⟩]
  else if rules = [] then
    .error "no monitor rules or cli args defined"
  else
    .ok rules

/-- The dataset loop of checkCounts. -/
def checkCountsDs (env : Env) (rules : List MonitorCount) :
    SnapCheck → List String → SnapCheck × List Update
  | self, [] => (self, [])
  | self, d :: ds =>
    let r1 := checkSnapsCounts env self d rules
    let r2 := checkCountsDs env rules r1.1 ds
    (r2.1, r1.2 ++ r2.2)

/-- checkCounts from the source. -/
def checkCounts (env : Env) (self : SnapCheck) (cfgRules : List MonitorCount) :
    Except String (SnapCheck × List Update) :=
  match self.overrideCountRules cfgRules with
  | .error e => .error e
  | .ok rules => .ok (checkCountsDs env rules self (self.orderedDatasets.getD []))

/- Age mode (snapshots.go lines 378-475). -/

/-- applyCreationRule from the source.  The representative snapshot's age
is time.Since(creation) truncated to whole seconds; the summary is updated
when it is the first assignment (age still 0) or the new age improves it
in the mode's direction.  The no-snapshots branch again bypasses
updateResponse. -/
def SnapCheck.applyCreationRule (now : Int) (self : SnapCheck) (rule : MonitorCreation)
    (snap : Option FilesystemVersion) (fsName : String) : Bool × SnapCheck × List Update :=
  match snap with
  | none =>
    if rule.pfx = "" then (true, self, [])
    else (false, self, [⟨monitoringplugin.CRITICAL, noSnapsMsg fsName rule.pfx⟩])
  | some s =>
    let d := truncSecond (now - s.Creation)
    if d ≥ rule.Critical then
      let r := self.updateStatus monitoringplugin.CRITICAL
        (tooOldMsg self.snapshotType (s.FullPath fsName) d rule.Critical)
      (false, r.1, r.2)
    else if rule.Warning > 0 ∧ d ≥ rule.Warning then
      let r := self.updateStatus monitoringplugin.WARNING
        (tooOldMsg self.snapshotType (s.FullPath fsName) d rule.Warning)
      (false, r.1, r.2)
    else if self.age = 0 ∨ (self.oldest ∧ d > self.age) ∨ (!self.oldest ∧ d < self.age) then
      (true, { self with age := d, snapName := s.Name }, [])
    else
      (true, self, [])

/-- The rule loop of checkSnapsCreation: per-rule representative by mode,
break at the first rule that stops evaluation. -/
def runCreationRules (now : Int) (fsName : String) :
    SnapCheck → List (MonitorCreation × groupItem) → SnapCheck × List Update
  | self, [] => (self, [])
  | self, (r, g) :: rest =>
    match self.applyCreationRule now r (g.Snapshot self.oldest) fsName with
    | (true, s1, us) =>
      let r2 := runCreationRules now fsName s1 rest
      (r2.1, us ++ r2.2)
    | (false, s1, us) => (s1, us)

/-- checkSnapsCreation from the source. -/
def checkSnapsCreation (env : Env) (self : SnapCheck) (fsName : String)
    (rules : List MonitorCreation) : SnapCheck × List Update :=
  let r := snapshotsF env self fsName
  let grouped := groupSnapshots r.2 (rules.map (·.pfx))
  runCreationRules env.now fsName r.1 (rules.zip grouped)

/-- overrideAgeRules from the source. -/
def SnapCheck.overrideAgeRules (self : SnapCheck) (rules : List MonitorCreation) :
    Except String (List MonitorCreation) :=
  if self.pfx ≠ "" then
    .ok [⟨self.pfx, self.warn, self.crit⟩]
  else if rules = [] then
    .error "no monitor rules or cli args defined"
  else
    .ok rules

/-- rulesByCreation from the source: pick the oldest or latest rule list by
mode. -/
def rulesByCreation (j : JobEnum) (oldest : Bool) : List MonitorCreation :=
  if oldest then j.monitor.Oldest else j.monitor.Latest

/-- The dataset loop of checkCreation. -/
def checkCreationDs (env : Env) (rules : List MonitorCreation) :
    SnapCheck → List String → SnapCheck × List Update
  | self, [] => (self, [])
  | self, d :: ds =>
    let r1 := checkSnapsCreation env self d rules
    let r2 := checkCreationDs env rules r1.1 ds
    (r2.1, r1.2 ++ r2.2)

/-- checkCreation from the source. -/
def checkCreation (env : Env) (self : SnapCheck) (cfgRules : List MonitorCreation) :
    Except String (SnapCheck × List Update) :=
  match self.overrideAgeRules cfgRules with
  | .error e => .error e
  | .ok rules => .ok (checkCreationDs env rules self (self.orderedDatasets.getD []))

/- Dataset resolution (snapshots.go lines 120-229). -/

/-- Split a character list at '/' separators (the empty list yields one
empty segment, like splitting the empty name). -/
def splitSlash : List Char → List (List Char)
  | [] => [[]]
  | c :: rest =>
    match splitSlash rest with
    | [] => [[c]]
    | s :: ss => if c = '/' then [] :: s :: ss else (c :: s) :: ss

/-- Modelled from the spec: zfs.NewDatasetPath, which the monitor core
calls but whose code is outside this excerpt.  A dataset path is the list
of its slash-separated segments, every segment non-empty; length is the
segment count. -/
def NewDatasetPath (s : String) : Option (List String) :=
  let segs := (splitSlash s.data).map (fun l => String.mk l)
  if s = "" ∨ segs.any (· = "") then none else some segs

/-- The loop of datasetsFromRootFs: skip datasets shallower than
root.length + 1 + skipN and datasets whose placeholder property is the
literal value on with source local; path parse failures abort. -/
def datasetsFromRootFsGo (rootLen skipN : Nat) :
    List (String × PropDetails) → Option (List String)
  | [] => some []
  | (fs, p) :: rest =>
    match NewDatasetPath fs with
    | none => none
    | some path =>
      if path.length < rootLen + 1 + skipN then
        datasetsFromRootFsGo rootLen skipN rest
      else if p.source = .SourceLocal ∧ p.value = "on" then
        datasetsFromRootFsGo rootLen skipN rest
      else
        (datasetsFromRootFsGo rootLen skipN rest).map (fs :: ·)

/-- datasetsFromRootFs from the source, over the recursive property fetch
held in the environment. -/
def datasetsFromRootFs (propsByFS : List (String × PropDetails)) (rootFs : String)
    (skipN : Nat) : Option (List String) :=
  match NewDatasetPath rootFs with
  | none => none
  | some rootPath => datasetsFromRootFsGo rootPath.length skipN propsByFS

/-- datasetsFromFilter from the source: keep the listed filesystems the
job's filter accepts; any path parse failure aborts. -/
def datasetsFromFilter (env : Env) (f : String → Bool) : Option (List String) :=
  if env.listed.all (fun n => (NewDatasetPath n).isSome) then
    some (env.listed.filter f)
  else
    none

/-- The resolution type-switch of jobDatasets. -/
def resolveJob (env : Env) (j : JobEnum) : Option (List String) :=
  match j.kind with
  | .push => datasetsFromFilter env j.filterOk
  | .snap => datasetsFromFilter env j.filterOk
  | .source => datasetsFromFilter env j.filterOk
  | .pull rootFs => datasetsFromRootFs env.propsByFS rootFs 0
  | .sink rootFs => datasetsFromRootFs env.propsByFS rootFs 1

/-- slices.Sort on the resolved dataset names. -/
def sortDatasets (l : List String) : List String := l.mergeSort

/-- jobDatasets from the source: return immediately when already resolved,
else resolve, sort, and preload every dataset's snapshots into the cache. -/
def jobDatasets (env : Env) (j : JobEnum) (self : SnapCheck) : Option SnapCheck :=
  if self.orderedDatasets.isSome then
    some self
  else
    match resolveJob env j with
    | none => none
    | some raw =>
      let ds := sortDatasets raw
      some { self with
        orderedDatasets := some ds
        datasets := ds.map fun d => (d, env.snapshotsOf d) }

/- Orchestration (snapshots.go lines 91-118, 500-506). -/

/-- Run from the source: record the job name, resolve and preload, then
evaluate in the configured mode.  Resolution failure is a run error. -/
def Run (env : Env) (j : JobEnum) (self : SnapCheck) :
    Except String (SnapCheck × List Update) :=
  match jobDatasets env j { self with job := j.name } with
  | none => .error "dataset resolution failed"
  | some s1 =>
    if s1.counts then checkCounts env s1 j.monitor.Count
    else checkCreation env s1 (rulesByCreation j s1.oldest)

/-- Body of the OK summary appended by UpdateStatus. -/
def okSummaryBody (s : SnapCheck) : String :=
  if s.counts then "all snapshots count: " ++ toString s.snapCount
  else s.snapshotType ++ " " ++ goQuote s.snapName ++ ": " ++ showDuration s.age

/-- UpdateStatus from the source: run, then append the single OK summary
unless the run recorded a failure. -/
def UpdateStatus (env : Env) (j : JobEnum) (self : SnapCheck) :
    Except String (SnapCheck × List Update) :=
  match Run env j self with
  | .error e => .error e
  | .ok (s, us) =>
    if s.failed then .ok (s, us)
    else
      let r := s.updateStatus monitoringplugin.OK (okSummaryBody s)
      .ok (r.1, us ++ r.2)

/-- Reset from the source: clear age, snapCount, snapName and failed,
leaving every other field untouched. -/
def SnapCheck.Reset (self : SnapCheck) : SnapCheck :=
  { self with age := 0, snapCount := 0, snapName := "", failed := false }

/- Lemmas about groupSnapshots (claim C3). -/

/-- Bool form of the first-pattern match condition, as List.filter uses it. -/
def fmatch (q : String) (x : FilesystemVersion) : Bool :=
  decide (q = "" ∨ strStarts q x.Name = true)

theorem fmatch_eq_true {q : String} {x : FilesystemVersion} :
    fmatch q x = true ↔ (q = "" ∨ strStarts q x.Name = true) := by
  simp [fmatch]

theorem foldl_addToGroups_nil (s : List FilesystemVersion) (gs : List groupItem) :
    s.foldl (fun acc x => addToGroups [] acc x) gs = gs := by
  induction s generalizing gs with
  | nil => rfl
  | cons x s ih => exact ih gs

theorem foldl_addToGroups_cons (q : String) (qs : List String)
    (s : List FilesystemVersion) (g0 : groupItem) (gs : List groupItem) :
    s.foldl (fun acc x => addToGroups (q :: qs) acc x) (g0 :: gs)
      = (s.filter (fmatch q)).foldl updateGroup g0
        :: (s.filter fun x => !fmatch q x).foldl (fun acc x => addToGroups qs acc x) gs := by
  induction s generalizing g0 gs with
  | nil => rfl
  | cons x s ih =>
    by_cases h : q = "" ∨ strStarts q x.Name = true
    · have hb : fmatch q x = true := fmatch_eq_true.mpr h
      simp only [List.foldl_cons, addToGroups, if_pos h, List.filter_cons, hb,
        Bool.not_true, if_true]
      simpa using ih (updateGroup g0 x) gs
    · have hb : fmatch q x = false := by
        simp only [fmatch, decide_eq_false_iff_not]; exact h
      simp only [List.foldl_cons, addToGroups, if_neg h, List.filter_cons, hb,
        Bool.not_false, if_false]
      simpa using ih g0 (addToGroups qs gs x)

theorem foldl_updateGroup (m : List FilesystemVersion) (g : groupItem) :
    m.foldl updateGroup g
      = ⟨g.Count + m.length, m.foldl oldPick g.Oldest, m.foldl latPick g.Latest⟩ := by
  induction m generalizing g with
  | nil => simp
  | cons x m ih =>
    have hstep : updateGroup g x = ⟨g.Count + 1, oldPick g.Oldest x, latPick g.Latest x⟩ := by
      cases hO : g.Oldest <;> cases hL : g.Latest <;>
        simp [updateGroup, oldPick, latPick, hO, hL]
    rw [List.foldl_cons, hstep, ih]
    simp [Nat.add_assoc, Nat.add_comm 1 m.length]

theorem foldl_updateGroup_empty (m : List FilesystemVersion) :
    m.foldl updateGroup ⟨0, none, none⟩ = groupOf m := by
  simpa [groupOf, minFold, maxFold] using foldl_updateGroup m ⟨0, none, none⟩

theorem firstMatchIdx_cons_zero {q : String} {qs : List String} {n : String} :
    firstMatchIdx (q :: qs) n = some 0 ↔ (q = "" ∨ strStarts q n = true) := by
  by_cases h : q = "" ∨ strStarts q n = true
  · simp [firstMatchIdx, h]
  · simp only [firstMatchIdx, if_neg h]
    constructor
    · intro hEq
      exfalso
      cases hFM : firstMatchIdx qs n with
      | none => rw [hFM] at hEq; simp at hEq
      | some i => rw [hFM] at hEq; simp at hEq
    · intro hc; exact absurd hc h

theorem firstMatchIdx_cons_succ {q : String} {qs : List String} {n : String} {i : Nat} :
    firstMatchIdx (q :: qs) n = some (i + 1)
      ↔ (¬(q = "" ∨ strStarts q n = true) ∧ firstMatchIdx qs n = some i) := by
  by_cases h : q = "" ∨ strStarts q n = true
  · simp [firstMatchIdx, h]
  · simp only [firstMatchIdx, if_neg h]
    cases hFM : firstMatchIdx qs n with
    | none => simp [h]
    | some k => simp [h, Nat.succ_inj]

theorem groupSnapshots_eq_specGroups (s : List FilesystemVersion) (p : List String) :
    groupSnapshots s p = specGroups s p := by
  induction p generalizing s with
  | nil => simp [groupSnapshots, specGroups, foldl_addToGroups_nil]
  | cons q qs ih =>
    unfold groupSnapshots specGroups
    simp only [List.length_cons]
    rw [List.replicate_succ, foldl_addToGroups_cons, foldl_updateGroup_empty]
    rw [List.range_succ_eq_map, List.map_cons, List.map_map]
    congr 1
    · congr 1
      apply List.filter_congr
      intro x _
      simp only [fmatch, decide_eq_decide]
      exact firstMatchIdx_cons_zero.symm
    · have htail := ih (s.filter fun x => !fmatch q x)
      unfold groupSnapshots specGroups at htail
      rw [htail]
      apply List.map_congr_left
      intro i _
      simp only [Function.comp_apply]
      congr 1
      rw [List.filter_filter]
      apply List.filter_congr
      intro x _
      have hiff : (firstMatchIdx (q :: qs) x.Name = some (i + 1))
          ↔ (firstMatchIdx qs x.Name = some i ∧ ¬(q = "" ∨ strStarts q x.Name = true)) := by
        rw [firstMatchIdx_cons_succ]; tauto
      simp only [Nat.succ_eq_add_one]
      rw [decide_eq_decide.mpr hiff]
      · simp [fmatch, Bool.decide_and, decide_not]
      · infer_instance

theorem foldl_oldPick_some (l : List FilesystemVersion) :
    ∀ a : FilesystemVersion, ∃ o, l.foldl oldPick (some a) = some o ∧
      (∀ x ∈ a :: l, o.Creation ≤ x.Creation) ∧
      ∃ pre post, a :: l = pre ++ o :: post ∧ ∀ x ∈ pre, o.Creation < x.Creation := by
  induction l with
  | nil =>
    intro a
    exact ⟨a, rfl, by simp, [], [], rfl, by simp⟩
  | cons b rest ih =>
    intro a
    by_cases h : b.Creation < a.Creation
    · obtain ⟨o, h1, h2, pre, post, h3, h4⟩ := ih b
      refine ⟨o, ?_, ?_, a :: pre, post, ?_, ?_⟩
      · rw [List.foldl_cons]
        simpa [oldPick, h] using h1
      · intro x hx
        rcases List.mem_cons.mp hx with rfl | hx'
        · exact le_of_lt (lt_of_le_of_lt (h2 b (by simp)) h)
        · exact h2 x hx'
      · simpa using h3
      · intro x hx
        rcases List.mem_cons.mp hx with rfl | hx'
        · exact lt_of_le_of_lt (h2 b (by simp)) h
        · exact h4 x hx'
    · obtain ⟨o, h1, h2, pre, post, h3, h4⟩ := ih a
      refine ⟨o, ?_, ?_, ?_⟩
      · rw [List.foldl_cons]
        simpa [oldPick, h] using h1
      · intro x hx
        rcases List.mem_cons.mp hx with hxa | hx'
        · rw [hxa]
          exact h2 a (by simp)
        · rcases List.mem_cons.mp hx' with hxb | hx''
          · rw [hxb]
            exact le_trans (h2 a (by simp)) (le_of_not_lt h)
          · exact h2 x (by simp [hx''])
      · cases pre with
        | nil =>
          simp only [List.nil_append] at h3
          injection h3 with hao hrp
          subst hao
          refine ⟨[], b :: rest, by simp [hrp], by simp⟩
        | cons p0 pre' =>
          have h3' : a = p0 ∧ rest = pre' ++ o :: post := by
            simpa using h3
          obtain ⟨hp, hrest⟩ := h3'
          subst hp
          refine ⟨a :: b :: pre', post, by simp [hrest], ?_⟩
          intro x hx
          have hoa : o.Creation < a.Creation := h4 a (by simp)
          rcases List.mem_cons.mp hx with rfl | hx'
          · exact hoa
          · rcases List.mem_cons.mp hx' with rfl | hx''
            · exact lt_of_lt_of_le hoa (le_of_not_lt h)
            · exact h4 x (by simp [hx''])

theorem foldl_latPick_some (l : List FilesystemVersion) :
    ∀ a : FilesystemVersion, ∃ o, l.foldl latPick (some a) = some o ∧
      (∀ x ∈ a :: l, x.Creation ≤ o.Creation) ∧
      ∃ pre post, a :: l = pre ++ o :: post ∧ ∀ x ∈ pre, x.Creation < o.Creation := by
  induction l with
  | nil =>
    intro a
    exact ⟨a, rfl, by simp, [], [], rfl, by simp⟩
  | cons b rest ih =>
    intro a
    by_cases h : b.Creation > a.Creation
    · obtain ⟨o, h1, h2, pre, post, h3, h4⟩ := ih b
      refine ⟨o, ?_, ?_, a :: pre, post, ?_, ?_⟩
      · rw [List.foldl_cons]
        simpa [latPick, h] using h1
      · intro x hx
        rcases List.mem_cons.mp hx with rfl | hx'
        · exact le_of_lt (lt_of_lt_of_le h (h2 b (by simp)))
        · exact h2 x hx'
      · simpa using h3
      · intro x hx
        rcases List.mem_cons.mp hx with rfl | hx'
        · exact lt_of_lt_of_le h (h2 b (by simp))
        · exact h4 x hx'
    · obtain ⟨o, h1, h2, pre, post, h3, h4⟩ := ih a
      refine ⟨o, ?_, ?_, ?_⟩
      · rw [List.foldl_cons]
        simpa [latPick, h] using h1
      · intro x hx
        rcases List.mem_cons.mp hx with hxa | hx'
        · rw [hxa]
          exact h2 a (by simp)
        · rcases List.mem_cons.mp hx' with hxb | hx''
          · rw [hxb]
            exact le_trans (le_of_not_lt h) (h2 a (by simp))
          · exact h2 x (by simp [hx''])
      · cases pre with
        | nil =>
          simp only [List.nil_append] at h3
          injection h3 with hao hrp
          subst hao
          refine ⟨[], b :: rest, by simp [hrp], by simp⟩
        | cons p0 pre' =>
          have h3' : a = p0 ∧ rest = pre' ++ o :: post := by
            simpa using h3
          obtain ⟨hp, hrest⟩ := h3'
          subst hp
          refine ⟨a :: b :: pre', post, by simp [hrest], ?_⟩
          intro x hx
          have hoa : a.Creation < o.Creation := h4 a (by simp)
          rcases List.mem_cons.mp hx with rfl | hx'
          · exact hoa
          · rcases List.mem_cons.mp hx' with rfl | hx''
            · exact lt_of_le_of_lt (le_of_not_lt h) hoa
            · exact h4 x (by simp [hx''])

theorem minFold_spec {m : List FilesystemVersion} {o : FilesystemVersion}
    (h : minFold m = some o) :
    o ∈ m ∧ (∀ x ∈ m, o.Creation ≤ x.Creation) ∧
    ∃ pre post, m = pre ++ o :: post ∧ ∀ x ∈ pre, o.Creation < x.Creation := by
  cases m with
  | nil => simp [minFold] at h
  | cons a l =>
    obtain ⟨o', h1, h2, pre, post, h3, h4⟩ := foldl_oldPick_some l a
    have h' : l.foldl oldPick (some a) = some o := by
      simpa [minFold, oldPick] using h
    rw [h'] at h1
    injection h1 with h1
    subst h1
    exact ⟨by rw [h3]; simp, h2, pre, post, h3, h4⟩

theorem maxFold_spec {m : List FilesystemVersion} {o : FilesystemVersion}
    (h : maxFold m = some o) :
    o ∈ m ∧ (∀ x ∈ m, x.Creation ≤ o.Creation) ∧
    ∃ pre post, m = pre ++ o :: post ∧ ∀ x ∈ pre, x.Creation < o.Creation := by
  cases m with
  | nil => simp [maxFold] at h
  | cons a l =>
    obtain ⟨o', h1, h2, pre, post, h3, h4⟩ := foldl_latPick_some l a
    have h' : l.foldl latPick (some a) = some o := by
      simpa [maxFold, latPick] using h
    rw [h'] at h1
    injection h1 with h1
    subst h1
    exact ⟨by rw [h3]; simp, h2, pre, post, h3, h4⟩

theorem minFold_eq_none_iff {m : List FilesystemVersion} :
    minFold m = none ↔ m = [] := by
  cases m with
  | nil => simp [minFold]
  | cons a l =>
    obtain ⟨o, h1, -⟩ := foldl_oldPick_some l a
    simp only [minFold, List.foldl_cons]
    constructor
    · intro hnone
      rw [show oldPick none a = some a from rfl] at hnone
      rw [h1] at hnone
      exact absurd hnone (by simp)
    · intro hc
      exact absurd hc (by simp)

theorem maxFold_eq_none_iff {m : List FilesystemVersion} :
    maxFold m = none ↔ m = [] := by
  cases m with
  | nil => simp [maxFold]
  | cons a l =>
    obtain ⟨o, h1, -⟩ := foldl_latPick_some l a
    simp only [maxFold, List.foldl_cons]
    constructor
    · intro hnone
      rw [show latPick none a = some a from rfl] at hnone
      rw [h1] at hnone
      exact absurd hnone (by simp)
    · intro hc
      exact absurd hc (by simp)

/-- C3: for every snapshot list and pattern list, groupSnapshots returns
exactly len(prefixes) aggregates, equal to the specification-side grouping
by first matching pattern index; aggregate i's Count is the number of
snapshots whose first matching pattern (empty pattern matches any name)
has index i; Count is 0 iff Oldest is none iff Latest is none; and when
Count is positive, Oldest and Latest are members of the group with minimal
respectively maximal creation instant, the first-encountered snapshot
winning when two share the same instant. -/
theorem C3_groupSnapshots_first_match (s : List FilesystemVersion) (p : List String) :
    groupSnapshots s p = specGroups s p ∧
    (groupSnapshots s p).length = p.length ∧
    ∀ i, i < p.length →
      ((groupSnapshots s p).getD i default).Count
        = (s.filter fun x => decide (firstMatchIdx p x.Name = some i)).length ∧
      (((groupSnapshots s p).getD i default).Count = 0
        ↔ ((groupSnapshots s p).getD i default).Oldest = none) ∧
      (((groupSnapshots s p).getD i default).Count = 0
        ↔ ((groupSnapshots s p).getD i default).Latest = none) ∧
      (∀ o, ((groupSnapshots s p).getD i default).Oldest = some o →
        o ∈ (s.filter fun x => decide (firstMatchIdx p x.Name = some i)) ∧
        (∀ x ∈ s.filter fun x => decide (firstMatchIdx p x.Name = some i),
          o.Creation ≤ x.Creation) ∧
        ∃ pre post,
          (s.filter fun x => decide (firstMatchIdx p x.Name = some i)) = pre ++ o :: post ∧
          ∀ x ∈ pre, o.Creation < x.Creation) ∧
      (∀ o, ((groupSnapshots s p).getD i default).Latest = some o →
        o ∈ (s.filter fun x => decide (firstMatchIdx p x.Name = some i)) ∧
        (∀ x ∈ s.filter fun x => decide (firstMatchIdx p x.Name = some i),
          x.Creation ≤ o.Creation) ∧
        ∃ pre post,
          (s.filter fun x => decide (firstMatchIdx p x.Name = some i)) = pre ++ o :: post ∧
          ∀ x ∈ pre, x.Creation < o.Creation) := by
  have hspec := groupSnapshots_eq_specGroups s p
  refine ⟨hspec, ?_, ?_⟩
  · rw [hspec]
    simp [specGroups]
  · intro i hi
    have hgetd : (groupSnapshots s p).getD i default
        = groupOf (s.filter fun x => decide (firstMatchIdx p x.Name = some i)) := by
      rw [hspec]
      unfold specGroups
      rw [List.getD_eq_getElem _ _ (by simpa using hi)]
      rw [List.getElem_map, List.getElem_range]
    rw [hgetd]
    refine ⟨rfl, ?_, ?_, ?_, ?_⟩
    · show _ ↔ minFold _ = none
      rw [minFold_eq_none_iff]
      exact List.length_eq_zero
    · show _ ↔ maxFold _ = none
      rw [maxFold_eq_none_iff]
      exact List.length_eq_zero
    · intro o ho
      exact minFold_spec ho
    · intro o ho
      exact maxFold_spec ho

/-- Concrete snapshot list for the C3 witness. -/
def c3s : List FilesystemVersion := [⟨"a1", 5⟩, ⟨"a2", 3⟩, ⟨"b1", 7⟩]

/-- Concrete pattern list for the C3 witness. -/
def c3p : List String := ["a", ""]

theorem C3_groupSnapshots_first_match_witness :
    0 < c3p.length ∧
    ((groupSnapshots c3s c3p).getD 0 default).Count
      = (c3s.filter fun x => decide (firstMatchIdx c3p x.Name = some 0)).length ∧
    ((groupSnapshots c3s c3p).getD 0 default).Count = 2 :=
  ⟨by decide, ((C3_groupSnapshots_first_match c3s c3p).2.2 0 (by decide)).1, by decide⟩

/- Emission tracking: which updates went through updateResponse (and so
set the failed flag) and what every message looks like (claims C1, C10). -/

/-- An update that sets the failed flag: non-OK severity, emitted through
updateStatus, hence carrying the job tag. -/
def trackedB (job : String) (u : Update) : Bool :=
  (u.code != monitoringplugin.OK) && strStarts (jobTag job) u.msg

/-- Shape of every message the monitor core can emit: either the
no-snapshots CRITICAL, which starts with the quoted dataset name and not
with the job tag, or a job-tagged message. -/
def UpdShape (job : String) (u : Update) : Prop :=
  (∃ fsn q, u.msg = noSnapsMsg fsn q ∧ u.code = monitoringplugin.CRITICAL ∧
    strStarts (jobTag job) u.msg = false ∧ strStarts (goQuote fsn) u.msg = true)
  ∨ strStarts (jobTag job) u.msg = true

/-- What one evaluation step guarantees about its state change and emitted
updates: the job name is preserved, the failed flag grows by exactly the
tracked updates emitted, and every update has the documented shape. -/
def Emits (job : String) (sIn sOut : SnapCheck) (us : List Update) : Prop :=
  sOut.job = sIn.job ∧
  sOut.failed = (sIn.failed || us.any (trackedB job)) ∧
  ∀ u ∈ us, UpdShape job u

theorem strStarts_append (a b : String) : strStarts a (a ++ b) = true := by
  simp [strStarts, String.data_append, List.isPrefixOf_iff_prefix]

theorem strStarts_jobTag_noSnaps (job fsn q : String) :
    strStarts (jobTag job) (noSnapsMsg fsn q) = false := by
  have h1 : "job ".data = ['j', 'o', 'b', ' '] := by decide
  have h2 : "\"".data = ['"'] := by decide
  simp only [strStarts, jobTag, noSnapsMsg, goQuote, String.data_append, h1, h2]
  simp [List.isPrefixOf]

theorem strStarts_goQuote_noSnaps (fsn q : String) :
    strStarts (goQuote fsn) (noSnapsMsg fsn q) = true := by
  unfold noSnapsMsg
  have : goQuote fsn ++ " has no snapshots with prefix " ++ goQuote q
      = goQuote fsn ++ (" has no snapshots with prefix " ++ goQuote q) := by
    simp [String.append_assoc]
  rw [this]
  exact strStarts_append _ _

theorem Emits.nilStep {job : String} {s : SnapCheck} : Emits job s s [] :=
  ⟨rfl, by simp, by simp⟩

theorem Emits.comp {job : String} {s0 s1 s2 : SnapCheck} {us1 us2 : List Update}
    (h1 : Emits job s0 s1 us1) (h2 : Emits job s1 s2 us2) :
    Emits job s0 s2 (us1 ++ us2) := by
  obtain ⟨hj1, hf1, hs1⟩ := h1
  obtain ⟨hj2, hf2, hs2⟩ := h2
  refine ⟨hj2.trans hj1, ?_, ?_⟩
  · rw [hf2, hf1, List.any_append, Bool.or_assoc]
  · intro u hu
    rcases List.mem_append.mp hu with h | h
    · exact hs1 u h
    · exact hs2 u h

theorem emits_updateStatus (self : SnapCheck) (c : Nat) (body : String) :
    Emits self.job self (self.updateStatus c body).1 (self.updateStatus c body).2 := by
  refine ⟨rfl, ?_, ?_⟩
  · simp [SnapCheck.updateStatus, SnapCheck.updateResponse, trackedB,
      strStarts_append, Bool.and_comm]
  · intro u hu
    simp only [SnapCheck.updateStatus, SnapCheck.updateResponse, List.mem_singleton] at hu
    subst hu
    exact Or.inr (strStarts_append _ _)

theorem emits_applyCountRule (self : SnapCheck) (rule : MonitorCount) (fsName : String)
    (g : groupItem) :
    Emits self.job self (self.applyCountRule rule fsName g).2.1
      (self.applyCountRule rule fsName g).2.2 := by
  unfold SnapCheck.applyCountRule
  by_cases h1 : g.Count = 0 ∧ rule.pfx = ""
  · simp only [if_pos h1]
    exact ⟨rfl, by simp, by simp⟩
  · simp only [if_neg h1]
    by_cases h2 : g.Count = 0
    · simp only [if_pos h2]
      refine ⟨rfl, ?_, ?_⟩
      · simp [trackedB, strStarts_jobTag_noSnaps]
      · intro u hu
        simp only [List.mem_singleton] at hu
        subst hu
        exact Or.inl ⟨fsName, rule.pfx, rfl, rfl, strStarts_jobTag_noSnaps _ _ _,
          strStarts_goQuote_noSnaps _ _⟩
    · simp only [if_neg h2]
      by_cases h3 : g.Count ≥ rule.Critical
      · simp only [if_pos h3]
        exact emits_updateStatus self monitoringplugin.CRITICAL _
      · simp only [if_neg h3]
        by_cases h4 : rule.Warning > 0 ∧ g.Count ≥ rule.Warning
        · simp only [if_pos h4]
          exact emits_updateStatus self monitoringplugin.WARNING _
        · simp only [if_neg h4]
          exact ⟨rfl, by simp, by simp⟩

theorem emits_runCountRules (fsName : String) (L : List (MonitorCount × groupItem)) :
    ∀ self : SnapCheck,
      Emits self.job self (runCountRules fsName self L).1 (runCountRules fsName self L).2 := by
  induction L with
  | nil => exact fun self => ⟨rfl, by simp [runCountRules], by simp [runCountRules]⟩
  | cons hd rest ih =>
    intro self
    obtain ⟨r, g⟩ := hd
    have happ := emits_applyCountRule self r fsName g
    unfold runCountRules
    rcases hres : self.applyCountRule r fsName g with ⟨flag, s1, us⟩
    rw [hres] at happ
    cases flag with
    | true =>
      have hrest := ih s1
      rw [happ.1] at hrest
      exact happ.comp hrest
    | false =>
      exact happ

theorem emits_snapshotsF (env : Env) (self : SnapCheck) (fsName : String) :
    Emits self.job self (snapshotsF env self fsName).1 [] := by
  unfold snapshotsF
  split <;> exact ⟨rfl, by simp, by simp⟩

theorem emits_checkSnapsCounts (env : Env) (self : SnapCheck) (fsName : String)
    (rules : List MonitorCount) :
    Emits self.job self (checkSnapsCounts env self fsName rules).1
      (checkSnapsCounts env self fsName rules).2 := by
  unfold checkSnapsCounts
  have h1 := emits_snapshotsF env self fsName
  have h2 := emits_runCountRules fsName
    (rules.zip (groupSnapshots (snapshotsF env self fsName).2 (rules.map (·.pfx))))
    (snapshotsF env self fsName).1
  rw [h1.1] at h2
  simpa using h1.comp h2

theorem emits_checkCountsDs (env : Env) (rules : List MonitorCount) (ds : List String) :
    ∀ self : SnapCheck,
      Emits self.job self (checkCountsDs env rules self ds).1
        (checkCountsDs env rules self ds).2 := by
  induction ds with
  | nil => exact fun self => ⟨rfl, by simp [checkCountsDs], by simp [checkCountsDs]⟩
  | cons d ds ih =>
    intro self
    unfold checkCountsDs
    have h1 := emits_checkSnapsCounts env self d rules
    have h2 := ih (checkSnapsCounts env self d rules).1
    rw [h1.1] at h2
    exact h1.comp h2

theorem emits_applyCreationRule (now : Int) (self : SnapCheck) (rule : MonitorCreation)
    (snap : Option FilesystemVersion) (fsName : String) :
    Emits self.job self (self.applyCreationRule now rule snap fsName).2.1
      (self.applyCreationRule now rule snap fsName).2.2 := by
  unfold SnapCheck.applyCreationRule
  cases snap with
  | none =>
    by_cases h1 : rule.pfx = ""
    · simp only [if_pos h1]
      exact ⟨rfl, by simp, by simp⟩
    · simp only [if_neg h1]
      refine ⟨rfl, ?_, ?_⟩
      · simp [trackedB, strStarts_jobTag_noSnaps]
      · intro u hu
        simp only [List.mem_singleton] at hu
        subst hu
        exact Or.inl ⟨fsName, rule.pfx, rfl, rfl, strStarts_jobTag_noSnaps _ _ _,
          strStarts_goQuote_noSnaps _ _⟩
  | some s =>
    simp only
    by_cases h2 : truncSecond (now - s.Creation) ≥ rule.Critical
    · simp only [if_pos h2]
      exact emits_updateStatus self monitoringplugin.CRITICAL _
    · simp only [if_neg h2]
      by_cases h3 : rule.Warning > 0 ∧ truncSecond (now - s.Creation) ≥ rule.Warning
      · simp only [if_pos h3]
        exact emits_updateStatus self monitoringplugin.WARNING _
      · simp only [if_neg h3]
        by_cases h4 : self.age = 0 ∨ (self.oldest ∧ truncSecond (now - s.Creation) > self.age)
            ∨ (!self.oldest ∧ truncSecond (now - s.Creation) < self.age)
        · simp only [if_pos h4]
          exact ⟨rfl, by simp, by simp⟩
        · simp only [if_neg h4]
          exact ⟨rfl, by simp, by simp⟩

theorem emits_runCreationRules (now : Int) (fsName : String)
    (L : List (MonitorCreation × groupItem)) :
    ∀ self : SnapCheck,
      Emits self.job self (runCreationRules now fsName self L).1
        (runCreationRules now fsName self L).2 := by
  induction L with
  | nil => exact fun self => ⟨rfl, by simp [runCreationRules], by simp [runCreationRules]⟩
  | cons hd rest ih =>
    intro self
    obtain ⟨r, g⟩ := hd
    have happ := emits_applyCreationRule now self r (g.Snapshot self.oldest) fsName
    unfold runCreationRules
    rcases hres : self.applyCreationRule now r (g.Snapshot self.oldest) fsName
      with ⟨flag, s1, us⟩
    rw [hres] at happ
    cases flag with
    | true =>
      have hrest := ih s1
      rw [happ.1] at hrest
      exact happ.comp hrest
    | false =>
      exact happ

theorem emits_checkSnapsCreation (env : Env) (self : SnapCheck) (fsName : String)
    (rules : List MonitorCreation) :
    Emits self.job self (checkSnapsCreation env self fsName rules).1
      (checkSnapsCreation env self fsName rules).2 := by
  unfold checkSnapsCreation
  have h1 := emits_snapshotsF env self fsName
  have h2 := emits_runCreationRules env.now fsName
    (rules.zip (groupSnapshots (snapshotsF env self fsName).2 (rules.map (·.pfx))))
    (snapshotsF env self fsName).1
  rw [h1.1] at h2
  simpa using h1.comp h2

theorem emits_checkCreationDs (env : Env) (rules : List MonitorCreation) (ds : List String) :
    ∀ self : SnapCheck,
      Emits self.job self (checkCreationDs env rules self ds).1
        (checkCreationDs env rules self ds).2 := by
  induction ds with
  | nil => exact fun self => ⟨rfl, by simp [checkCreationDs], by simp [checkCreationDs]⟩
  | cons d ds ih =>
    intro self
    unfold checkCreationDs
    have h1 := emits_checkSnapsCreation env self d rules
    have h2 := ih (checkSnapsCreation env self d rules).1
    rw [h1.1] at h2
    exact h1.comp h2

theorem jobDatasets_fields (env : Env) (j : JobEnum) (self s1 : SnapCheck)
    (h : jobDatasets env j self = some s1) :
    s1.job = self.job ∧ s1.failed = self.failed ∧ s1.counts = self.counts ∧
    s1.oldest = self.oldest ∧ s1.age = self.age ∧ s1.snapCount = self.snapCount ∧
    s1.snapName = self.snapName ∧ s1.pfx = self.pfx := by
  unfold jobDatasets at h
  split at h
  · injection h with h
    subst h
    exact ⟨rfl, rfl, rfl, rfl, rfl, rfl, rfl, rfl⟩
  · split at h
    · exact absurd h (by simp)
    · injection h with h
      subst h
      exact ⟨rfl, rfl, rfl, rfl, rfl, rfl, rfl, rfl⟩

theorem emits_Run (env : Env) (j : JobEnum) (self s : SnapCheck) (us : List Update)
    (h : Run env j self = .ok (s, us)) :
    s.job = j.name ∧
    s.failed = (self.failed || us.any (trackedB j.name)) ∧
    ∀ u ∈ us, UpdShape j.name u := by
  unfold Run at h
  rcases hjd : jobDatasets env j { self with job := j.name } with _ | s1
  · rw [hjd] at h
    exact absurd h (by simp)
  · rw [hjd] at h
    have hf := jobDatasets_fields env j _ s1 hjd
    simp only at h
    split at h
    · unfold checkCounts at h
      rcases hov : s1.overrideCountRules j.monitor.Count with e | rules
      · rw [hov] at h
        exact absurd h (by simp)
      · rw [hov] at h
        simp only at h
        injection h with h
        have he := emits_checkCountsDs env rules (s1.orderedDatasets.getD []) s1
        rw [h] at he
        obtain ⟨hj, hfl, hsh⟩ := he
        have hjob : s1.job = j.name := hf.1
        refine ⟨by rw [hj, hjob], by rw [hfl, hjob, hf.2.1], ?_⟩
        rw [hjob] at hsh
        exact hsh
    · unfold checkCreation at h
      rcases hov : s1.overrideAgeRules (rulesByCreation j s1.oldest) with e | rules
      · rw [hov] at h
        exact absurd h (by simp)
      · rw [hov] at h
        simp only at h
        injection h with h
        have he := emits_checkCreationDs env rules (s1.orderedDatasets.getD []) s1
        rw [h] at he
        obtain ⟨hj, hfl, hsh⟩ := he
        have hjob : s1.job = j.name := hf.1
        refine ⟨by rw [hj, hjob], by rw [hfl, hjob, hf.2.1], ?_⟩
        rw [hjob] at hsh
        exact hsh

/- Claim C1.  The no-snapshots CRITICAL branch calls the sink directly,
bypassing updateResponse, so it does not set the failed flag: the claim as
stated is false on the code. -/

/-- Environment for the C1 counterexample: empty inventory. -/
def c1env : Env := ⟨[], [], fun _ => [], 0⟩

/-- Job for the C1 counterexample. -/
def c1job : JobEnum := ⟨"j1", .push, ⟨[], [], []⟩, fun _ => true⟩

/-- Initial state for the C1 counterexample: count mode, CLI override
pattern p, one already-resolved dataset with no snapshots. -/
def c1init : SnapCheck :=
  { counts := true, oldest := false, job := "", pfx := "p", warn := 0, crit := 0,
    countWarn := 1, countCrit := 2, age := 0, snapCount := 0, snapName := "",
    failed := false, datasets := [("tank/a", [])], orderedDatasets := some ["tank/a"] }

/-- C1 counterexample: on a dataset with no snapshots matching a non-empty
pattern, the run emits a CRITICAL update yet ends with failed = false, and
UpdateStatus then appends the OK summary even though a CRITICAL verdict
occurred — refuting both directions of the claim at this input. -/
theorem C1_counterexample :
    ((Run c1env c1job c1init).toOption.map fun r => (r.1.failed, r.2.map Update.code))
        = some (false, [monitoringplugin.CRITICAL]) ∧
    ((UpdateStatus c1env c1job c1init).toOption.map fun r => r.2.map Update.code)
        = some [monitoringplugin.CRITICAL, monitoringplugin.OK] :=
  ⟨rfl, rfl⟩

/-- C1 (amended): at the end of a run the failed flag is true iff some
status update emitted through updateStatus — i.e. carrying the job tag —
had severity other than OK; the no-snapshots CRITICAL messages, sent to
the sink directly, do not count.  UpdateStatus appends the single OK
summary exactly when failed is false at the end of Run (even if a
no-snapshots CRITICAL was emitted). -/
theorem C1_failed_iff_tagged_nonOK (env : Env) (j : JobEnum) (self s : SnapCheck)
    (us : List Update) (h0 : self.failed = false) (h : Run env j self = .ok (s, us)) :
    (s.failed = true ↔ ∃ u ∈ us,
        u.code ≠ monitoringplugin.OK ∧ strStarts (jobTag j.name) u.msg = true) ∧
    (s.failed = true → UpdateStatus env j self = .ok (s, us)) ∧
    (s.failed = false → UpdateStatus env j self
        = .ok (s, us ++ [⟨monitoringplugin.OK, jobTag j.name ++ okSummaryBody s⟩])) := by
  obtain ⟨hjob, hfl, -⟩ := emits_Run env j self s us h
  rw [h0, Bool.false_or] at hfl
  refine ⟨?_, ?_, ?_⟩
  · rw [hfl, List.any_eq_true]
    constructor
    · intro ⟨u, hu, ht⟩
      refine ⟨u, hu, ?_⟩
      simpa [trackedB] using ht
    · intro ⟨u, hu, hc, hs⟩
      refine ⟨u, hu, ?_⟩
      simp [trackedB, hc, hs]
  · intro hfail
    unfold UpdateStatus
    rw [h]
    simp [hfail]
  · intro hok
    unfold UpdateStatus
    rw [h]
    have hupd : s.updateStatus monitoringplugin.OK (okSummaryBody s)
        = (s, [⟨monitoringplugin.OK, jobTag j.name ++ okSummaryBody s⟩]) := by
      unfold SnapCheck.updateStatus SnapCheck.updateResponse
      rw [Prod.mk.injEq]
      constructor
      · simp
      · rw [hjob]
    simp [hok, hupd]

/-- Environment for the C1 witness: empty inventory, cache preloaded. -/
def c1wenv : Env := ⟨[], [], fun _ => [], 10⟩

/-- Job for the C1 witness. -/
def c1wjob : JobEnum := ⟨"wj", .snap, ⟨[], [], []⟩, fun _ => true⟩

/-- Initial state for the C1 witness: count mode, one dataset with one
snapshot, generous threshold, so the run is all-OK. -/
def c1winit : SnapCheck :=
  { counts := true, oldest := false, job := "", pfx := "s", warn := 0, crit := 0,
    countWarn := 0, countCrit := 5, age := 0, snapCount := 0, snapName := "",
    failed := false, datasets := [("tank/a", [⟨"s1", 3⟩])],
    orderedDatasets := some ["tank/a"] }

/- In c1winit the override pattern is s, so the single snapshot s1
matches and the run is all-OK. -/

/-- Expected end state of the C1 witness run. -/
def c1wres : SnapCheck := { c1winit with job := "wj", snapCount := 1 }

theorem C1_failed_iff_tagged_nonOK_witness :
    UpdateStatus c1wenv c1wjob c1winit
      = .ok (c1wres, [] ++ [⟨monitoringplugin.OK, jobTag "wj" ++ okSummaryBody c1wres⟩]) :=
  (C1_failed_iff_tagged_nonOK c1wenv c1wjob c1winit c1wres [] rfl rfl).2.2 rfl

/- Claim C10: message formats. -/

/-- C10: every update handed to the sink by a full UpdateStatus invocation
is either a no-snapshots CRITICAL, which begins with the quoted dataset
name and does not carry the job tag, or a message (threshold verdict or
the final OK summary) beginning with the tag job "name": . -/
theorem C10_message_format (env : Env) (j : JobEnum) (self s : SnapCheck)
    (us : List Update) (h : UpdateStatus env j self = .ok (s, us)) :
    ∀ u ∈ us,
      (∃ fsn q, u.msg = noSnapsMsg fsn q ∧ u.code = monitoringplugin.CRITICAL ∧
        strStarts (jobTag j.name) u.msg = false ∧ strStarts (goQuote fsn) u.msg = true)
      ∨ strStarts (jobTag j.name) u.msg = true := by
  unfold UpdateStatus at h
  rcases hrun : Run env j self with e | r
  · rw [hrun] at h
    exact absurd h (by simp)
  · obtain ⟨s0, us0⟩ := r
    rw [hrun] at h
    obtain ⟨hjob, -, hsh⟩ := emits_Run env j self s0 us0 hrun
    simp only at h
    by_cases hf : s0.failed = true
    · rw [if_pos hf] at h
      injection h with h
      injection h with hs0 hus
      intro u hu
      rw [← hus] at hu
      exact hsh u hu
    · rw [if_neg hf] at h
      injection h with h
      injection h with hs0 hus
      intro u hu
      rw [← hus] at hu
      rcases List.mem_append.mp hu with h1 | h1
      · exact hsh u h1
      · right
        simp only [SnapCheck.updateStatus, SnapCheck.updateResponse,
          List.mem_singleton] at h1
        rw [h1, hjob]
        exact strStarts_append _ _

/-- Environment for the C10 witness. -/
def c10env : Env := ⟨[], [], fun _ => [], 0⟩

/-- Job for the C10 witness. -/
def c10job : JobEnum := ⟨"j10", .push, ⟨[], [], []⟩, fun _ => true⟩

/-- Initial state for the C10 witness: count mode, an override pattern
that matches nothing, so the run emits a bare no-snapshots CRITICAL and
then the job-tagged OK summary. -/
def c10init : SnapCheck :=
  { counts := true, oldest := false, job := "", pfx := "p", warn := 0, crit := 0,
    countWarn := 1, countCrit := 2, age := 0, snapCount := 0, snapName := "",
    failed := false, datasets := [("tank/a", [])], orderedDatasets := some ["tank/a"] }

/-- Expected end state of the C10 witness run. -/
def c10res : SnapCheck := { c10init with job := "j10" }

/-- Expected update list of the C10 witness run. -/
def c10us : List Update :=
  [⟨monitoringplugin.CRITICAL, noSnapsMsg "tank/a" "p"⟩,
   ⟨monitoringplugin.OK, jobTag "j10" ++ okSummaryBody c10res⟩]

theorem C10_message_format_witness :
    (⟨monitoringplugin.CRITICAL, noSnapsMsg "tank/a" "p"⟩ : Update) ∈ c10us ∧
    ((∃ fsn q, noSnapsMsg "tank/a" "p" = noSnapsMsg fsn q ∧
        monitoringplugin.CRITICAL = monitoringplugin.CRITICAL ∧
        strStarts (jobTag "j10") (noSnapsMsg "tank/a" "p") = false ∧
        strStarts (goQuote fsn) (noSnapsMsg "tank/a" "p") = true)
      ∨ strStarts (jobTag "j10") (noSnapsMsg "tank/a" "p") = true) :=
  ⟨by simp [c10us],
    C10_message_format c10env c10job c10init c10res c10us rfl
      ⟨monitoringplugin.CRITICAL, noSnapsMsg "tank/a" "p"⟩ (by simp [c10us])⟩

/- Claim C4: count-mode rule evaluation, compared against a definition
written from the claim's words. -/

/-- Specification-side count evaluation from claim C4's words: walk the
rules in order; count 0 with empty pattern is skipped silently; count 0
otherwise yields the no-snapshots CRITICAL and stops; count at or above
critical yields CRITICAL with observed count and threshold and stops;
warning enabled and count at or above it yields WARNING and stops;
otherwise the count is accumulated and the next rule examined.  Returns
the emitted updates and the final accumulated total. -/
def countRulesSpecC4 (job fsName : String) :
    Nat → List (MonitorCount × groupItem) → List Update × Nat
  | total, [] => ([], total)
  | total, (r, g) :: rest =>
    if g.Count = 0 ∧ r.pfx = "" then countRulesSpecC4 job fsName total rest
    else if g.Count = 0 then
      ([⟨monitoringplugin.CRITICAL, noSnapsMsg fsName r.pfx⟩], total)
    else if g.Count ≥ r.Critical then
      ([⟨monitoringplugin.CRITICAL, jobTag job ++ countMsg fsName r.pfx g.Count r.Critical⟩],
        total)
    else if r.Warning > 0 ∧ g.Count ≥ r.Warning then
      ([⟨monitoringplugin.WARNING, jobTag job ++ countMsg fsName r.pfx g.Count r.Warning⟩],
        total)
    else countRulesSpecC4 job fsName (total + g.Count) rest

theorem runCountRules_spec (fsName : String) (L : List (MonitorCount × groupItem)) :
    ∀ st : SnapCheck,
      (runCountRules fsName st L).2 = (countRulesSpecC4 st.job fsName st.snapCount L).1 ∧
      (runCountRules fsName st L).1.snapCount
        = (countRulesSpecC4 st.job fsName st.snapCount L).2 := by
  induction L with
  | nil =>
    intro st
    exact ⟨rfl, rfl⟩
  | cons hd rest ih =>
    intro st
    obtain ⟨r, g⟩ := hd
    unfold runCountRules countRulesSpecC4 SnapCheck.applyCountRule
    by_cases h1 : g.Count = 0 ∧ r.pfx = ""
    · simp only [if_pos h1]
      exact ih st
    · simp only [if_neg h1]
      by_cases h2 : g.Count = 0
      · simp only [if_pos h2]
        exact ⟨trivial, trivial⟩
      · simp only [if_neg h2]
        by_cases h3 : g.Count ≥ r.Critical
        · simp only [if_pos h3]
          exact ⟨rfl, rfl⟩
        · simp only [if_neg h3]
          by_cases h4 : r.Warning > 0 ∧ g.Count ≥ r.Warning
          · simp only [if_pos h4]
            exact ⟨rfl, rfl⟩
          · simp only [if_neg h4]
            exact ih { st with snapCount := st.snapCount + g.Count }

/-- C4: in count mode the evaluation of a dataset behaves exactly as the
claim's rule-by-rule description countRulesSpecC4: same updates emitted
and same run-wide total, both for the raw rule loop and for
checkSnapsCounts over the grouped snapshot list. -/
theorem C4_count_rule_evaluation (env : Env) (self : SnapCheck) (fsName : String)
    (rules : List MonitorCount) :
    (∀ L : List (MonitorCount × groupItem), ∀ st : SnapCheck,
      (runCountRules fsName st L).2 = (countRulesSpecC4 st.job fsName st.snapCount L).1 ∧
      (runCountRules fsName st L).1.snapCount
        = (countRulesSpecC4 st.job fsName st.snapCount L).2) ∧
    (checkSnapsCounts env self fsName rules).2
      = (countRulesSpecC4 self.job fsName self.snapCount
          (rules.zip (groupSnapshots (snapshotsF env self fsName).2 (rules.map (·.pfx))))).1 ∧
    (checkSnapsCounts env self fsName rules).1.snapCount
      = (countRulesSpecC4 self.job fsName self.snapCount
          (rules.zip (groupSnapshots (snapshotsF env self fsName).2 (rules.map (·.pfx))))).2 := by
  refine ⟨fun L => runCountRules_spec fsName L, ?_, ?_⟩
  · unfold checkSnapsCounts
    have h := (runCountRules_spec fsName
      (rules.zip (groupSnapshots (snapshotsF env self fsName).2 (rules.map (·.pfx))))
      (snapshotsF env self fsName).1).1
    have hj : (snapshotsF env self fsName).1.job = self.job := by
      unfold snapshotsF
      split <;> rfl
    have hc : (snapshotsF env self fsName).1.snapCount = self.snapCount := by
      unfold snapshotsF
      split <;> rfl
    rw [hj, hc] at h
    exact h
  · unfold checkSnapsCounts
    have h := (runCountRules_spec fsName
      (rules.zip (groupSnapshots (snapshotsF env self fsName).2 (rules.map (·.pfx))))
      (snapshotsF env self fsName).1).2
    have hj : (snapshotsF env self fsName).1.job = self.job := by
      unfold snapshotsF
      split <;> rfl
    have hc : (snapshotsF env self fsName).1.snapCount = self.snapCount := by
      unfold snapshotsF
      split <;> rfl
    rw [hj, hc] at h
    exact h

/- Claim C5: short-circuit within a dataset, independence across
datasets. -/

/-- Whether the count rule loop stops early (some rule produced a non-OK
verdict) on the given list. -/
def countStops (fsName : String) : SnapCheck → List (MonitorCount × groupItem) → Bool
  | _, [] => false
  | self, (r, g) :: rest =>
    match self.applyCountRule r fsName g with
    | (true, s1, _) => countStops fsName s1 rest
    | (false, _, _) => true

/-- Whether the age rule loop stops early on the given list. -/
def creationStops (now : Int) (fsName : String) :
    SnapCheck → List (MonitorCreation × groupItem) → Bool
  | _, [] => false
  | self, (r, g) :: rest =>
    match self.applyCreationRule now r (g.Snapshot self.oldest) fsName with
    | (true, s1, _) => creationStops now fsName s1 rest
    | (false, _, _) => true

theorem checkCountsDs_nil (env : Env) (rules : List MonitorCount) (self : SnapCheck) :
    checkCountsDs env rules self [] = (self, []) := rfl

theorem checkCountsDs_cons (env : Env) (rules : List MonitorCount) (self : SnapCheck)
    (d : String) (ds : List String) :
    checkCountsDs env rules self (d :: ds)
      = ((checkCountsDs env rules (checkSnapsCounts env self d rules).1 ds).1,
        (checkSnapsCounts env self d rules).2
          ++ (checkCountsDs env rules (checkSnapsCounts env self d rules).1 ds).2) := rfl

theorem checkCreationDs_nil (env : Env) (rules : List MonitorCreation) (self : SnapCheck) :
    checkCreationDs env rules self [] = (self, []) := rfl

theorem checkCreationDs_cons (env : Env) (rules : List MonitorCreation) (self : SnapCheck)
    (d : String) (ds : List String) :
    checkCreationDs env rules self (d :: ds)
      = ((checkCreationDs env rules (checkSnapsCreation env self d rules).1 ds).1,
        (checkSnapsCreation env self d rules).2
          ++ (checkCreationDs env rules (checkSnapsCreation env self d rules).1 ds).2) := rfl

/-- C5: within a dataset, once some rule produces a non-OK verdict the
remaining rules are never examined (appending further rules changes
nothing, in either mode); and across datasets, evaluation of later
datasets always proceeds, whatever earlier datasets produced: the run on
ds1 ++ ds2 is the run on ds1 followed by the run on ds2 from the reached
state, in either mode. -/
theorem C5_short_circuit :
    (∀ (fsName : String) (self : SnapCheck) (xs ys : List (MonitorCount × groupItem)),
      countStops fsName self xs = true →
        runCountRules fsName self (xs ++ ys) = runCountRules fsName self xs) ∧
    (∀ (now : Int) (fsName : String) (self : SnapCheck)
        (xs ys : List (MonitorCreation × groupItem)),
      creationStops now fsName self xs = true →
        runCreationRules now fsName self (xs ++ ys) = runCreationRules now fsName self xs) ∧
    (∀ (env : Env) (rules : List MonitorCount) (self : SnapCheck) (ds1 ds2 : List String),
      checkCountsDs env rules self (ds1 ++ ds2)
        = ((checkCountsDs env rules (checkCountsDs env rules self ds1).1 ds2).1,
           (checkCountsDs env rules self ds1).2
             ++ (checkCountsDs env rules (checkCountsDs env rules self ds1).1 ds2).2)) ∧
    (∀ (env : Env) (rules : List MonitorCreation) (self : SnapCheck) (ds1 ds2 : List String),
      checkCreationDs env rules self (ds1 ++ ds2)
        = ((checkCreationDs env rules (checkCreationDs env rules self ds1).1 ds2).1,
           (checkCreationDs env rules self ds1).2
             ++ (checkCreationDs env rules (checkCreationDs env rules self ds1).1 ds2).2)) := by
  refine ⟨?_, ?_, ?_, ?_⟩
  · intro fsName self xs ys
    induction xs generalizing self with
    | nil => intro h; exact absurd h (by simp [countStops])
    | cons hd rest ih =>
      intro h
      obtain ⟨r, g⟩ := hd
      unfold countStops at h
      rw [List.cons_append]
      unfold runCountRules
      rcases hres : self.applyCountRule r fsName g with ⟨flag, s1, us⟩
      rw [hres] at h
      cases flag with
      | true =>
        have h' : countStops fsName s1 rest = true := h
        show ((runCountRules fsName s1 (rest ++ ys)).1,
              us ++ (runCountRules fsName s1 (rest ++ ys)).2)
            = ((runCountRules fsName s1 rest).1, us ++ (runCountRules fsName s1 rest).2)
        rw [ih s1 h']
      | false => rfl
  · intro now fsName self xs ys
    induction xs generalizing self with
    | nil => intro h; exact absurd h (by simp [creationStops])
    | cons hd rest ih =>
      intro h
      obtain ⟨r, g⟩ := hd
      unfold creationStops at h
      rw [List.cons_append]
      unfold runCreationRules
      rcases hres : self.applyCreationRule now r (g.Snapshot self.oldest) fsName
        with ⟨flag, s1, us⟩
      rw [hres] at h
      cases flag with
      | true =>
        have h' : creationStops now fsName s1 rest = true := h
        show ((runCreationRules now fsName s1 (rest ++ ys)).1,
              us ++ (runCreationRules now fsName s1 (rest ++ ys)).2)
            = ((runCreationRules now fsName s1 rest).1,
              us ++ (runCreationRules now fsName s1 rest).2)
        rw [ih s1 h']
      | false => rfl
  · intro env rules self ds1 ds2
    induction ds1 generalizing self with
    | nil => simp [checkCountsDs_nil]
    | cons d ds ih =>
      rw [List.cons_append, checkCountsDs_cons, ih (checkSnapsCounts env self d rules).1,
        checkCountsDs_cons]
      simp [List.append_assoc]
  · intro env rules self ds1 ds2
    induction ds1 generalizing self with
    | nil => simp [checkCreationDs_nil]
    | cons d ds ih =>
      rw [List.cons_append, checkCreationDs_cons, ih (checkSnapsCreation env self d rules).1,
        checkCreationDs_cons]
      simp [List.append_assoc]

/-- A rule list whose single element stops evaluation, for the C5
witness. -/
def c5xs : List (MonitorCount × groupItem) :=
  [(⟨"p", 0, 1⟩, ⟨3, none, none⟩)]

/-- A further rule that must never be examined, for the C5 witness. -/
def c5ys : List (MonitorCount × groupItem) :=
  [(⟨"q", 0, 1⟩, ⟨7, none, none⟩)]

theorem C5_short_circuit_witness :
    countStops "tank/a" c1init c5xs = true ∧
    runCountRules "tank/a" c1init (c5xs ++ c5ys) = runCountRules "tank/a" c1init c5xs :=
  ⟨by decide, C5_short_circuit.1 "tank/a" c1init c5xs c5ys (by decide)⟩

/- Claim C2: the age-mode run summary.  Specification-side: the list of
OK evaluations (age, snapshot name) of a rule list, and the summary
fold. -/

/-- The (age, name) pairs of the rules that evaluate OK, in evaluation
order, stopping at the first rule that emits a verdict; the age is now
minus the representative's creation instant truncated to whole seconds. -/
def okEvalsRules (now : Int) (oldest : Bool) :
    List (MonitorCreation × groupItem) → List (Int × String)
  | [] => []
  | (r, g) :: rest =>
    match g.Snapshot oldest with
    | none => if r.pfx = "" then okEvalsRules now oldest rest else []
    | some s =>
      let d := truncSecond (now - s.Creation)
      if d ≥ r.Critical then []
      else if r.Warning > 0 ∧ d ≥ r.Warning then []
      else (d, s.Name) :: okEvalsRules now oldest rest

/-- The OK evaluations of a whole run over the given datasets, reading
each dataset's snapshots from the cache. -/
def okEvalsDs (env : Env) (oldest : Bool) (rules : List MonitorCreation)
    (cache : List (String × List FilesystemVersion)) : List String → List (Int × String)
  | [] => []
  | d :: ds =>
    okEvalsRules env.now oldest
      (rules.zip (groupSnapshots ((lookupDs cache d).getD []) (rules.map (·.pfx))))
      ++ okEvalsDs env oldest rules cache ds

/-- The summary update of applyCreationRule as a fold step: take the new
pair when the summary age is still 0 or the new age improves it in the
mode's direction. -/
def updStep (oldest : Bool) (an : Int × String) (ev : Int × String) : Int × String :=
  if an.1 = 0 ∨ (oldest ∧ ev.1 > an.1) ∨ (!oldest ∧ ev.1 < an.1) then ev else an

/-- The run-wide summary as a fold of updStep over the OK evaluations. -/
def aggAge (oldest : Bool) (an : Int × String) (evs : List (Int × String)) : Int × String :=
  evs.foldl (updStep oldest) an

/-- Maximum of a list of ages (0 when empty). -/
def listMax (l : List Int) : Int :=
  match l with
  | [] => 0
  | x :: xs => xs.foldl max x

/-- Minimum of a list of ages (0 when empty). -/
def listMin (l : List Int) : Int :=
  match l with
  | [] => 0
  | x :: xs => xs.foldl min x

theorem runCreationRules_age (now : Int) (fsName : String)
    (L : List (MonitorCreation × groupItem)) :
    ∀ self : SnapCheck,
      (runCreationRules now fsName self L).1.oldest = self.oldest ∧
      (runCreationRules now fsName self L).1.datasets = self.datasets ∧
      ((runCreationRules now fsName self L).1.age,
        (runCreationRules now fsName self L).1.snapName)
        = aggAge self.oldest (self.age, self.snapName) (okEvalsRules now self.oldest L) := by
  induction L with
  | nil =>
    intro self
    exact ⟨rfl, rfl, rfl⟩
  | cons hd rest ih =>
    intro self
    obtain ⟨r, g⟩ := hd
    unfold runCreationRules okEvalsRules
    rcases hsnap : g.Snapshot self.oldest with _ | s
    · by_cases hp : r.pfx = ""
      · have happ : self.applyCreationRule now r none fsName = (true, self, []) := by
          simp [SnapCheck.applyCreationRule, hp]
        rw [happ]
        dsimp only
        rw [if_pos hp]
        exact ih self
      · have happ : self.applyCreationRule now r none fsName
            = (false, self, [⟨monitoringplugin.CRITICAL, noSnapsMsg fsName r.pfx⟩]) := by
          simp [SnapCheck.applyCreationRule, hp]
        rw [happ]
        dsimp only
        rw [if_neg hp]
        exact ⟨rfl, rfl, rfl⟩
    · by_cases hc : truncSecond (now - s.Creation) ≥ r.Critical
      · have happ : self.applyCreationRule now r (some s) fsName
            = (false,
              (self.updateStatus monitoringplugin.CRITICAL
                (tooOldMsg self.snapshotType (s.FullPath fsName)
                  (truncSecond (now - s.Creation)) r.Critical)).1,
              (self.updateStatus monitoringplugin.CRITICAL
                (tooOldMsg self.snapshotType (s.FullPath fsName)
                  (truncSecond (now - s.Creation)) r.Critical)).2) := by
          simp [SnapCheck.applyCreationRule, hc]
        rw [happ]
        dsimp only
        rw [if_pos hc]
        exact ⟨rfl, rfl, rfl⟩
      · by_cases hw : r.Warning > 0 ∧ truncSecond (now - s.Creation) ≥ r.Warning
        · have happ : self.applyCreationRule now r (some s) fsName
              = (false,
                (self.updateStatus monitoringplugin.WARNING
                  (tooOldMsg self.snapshotType (s.FullPath fsName)
                    (truncSecond (now - s.Creation)) r.Warning)).1,
                (self.updateStatus monitoringplugin.WARNING
                  (tooOldMsg self.snapshotType (s.FullPath fsName)
                    (truncSecond (now - s.Creation)) r.Warning)).2) := by
            simp [SnapCheck.applyCreationRule, hc, hw]
          rw [happ]
          dsimp only
          rw [if_neg hc, if_pos hw]
          exact ⟨rfl, rfl, rfl⟩
        · by_cases hu : self.age = 0 ∨ (self.oldest ∧ truncSecond (now - s.Creation) > self.age)
              ∨ (!self.oldest ∧ truncSecond (now - s.Creation) < self.age)
          · have happ : self.applyCreationRule now r (some s) fsName
                = (true,
                  { self with age := truncSecond (now - s.Creation), snapName := s.Name },
                  []) := by
              simp only [SnapCheck.applyCreationRule, if_neg hc, if_neg hw, if_pos hu]
            rw [happ]
            dsimp only
            rw [if_neg hc, if_neg hw]
            obtain ⟨ho, hd, ha⟩ :=
              ih { self with age := truncSecond (now - s.Creation), snapName := s.Name }
            refine ⟨ho, hd, ?_⟩
            unfold aggAge
            rw [List.foldl_cons]
            have hstep : updStep self.oldest (self.age, self.snapName)
                (truncSecond (now - s.Creation), s.Name)
                = (truncSecond (now - s.Creation), s.Name) := by
              unfold updStep
              exact if_pos hu
            rw [hstep]
            exact ha
          · have happ : self.applyCreationRule now r (some s) fsName
                = (true, self, []) := by
              simp only [SnapCheck.applyCreationRule, if_neg hc, if_neg hw, if_neg hu]
            rw [happ]
            dsimp only
            rw [if_neg hc, if_neg hw]
            obtain ⟨ho, hd, ha⟩ := ih self
            refine ⟨ho, hd, ?_⟩
            unfold aggAge
            rw [List.foldl_cons]
            have hstep : updStep self.oldest (self.age, self.snapName)
                (truncSecond (now - s.Creation), s.Name)
                = (self.age, self.snapName) := by
              unfold updStep
              exact if_neg hu
            rw [hstep]
            exact ha

theorem aggAge_nil (oldest : Bool) (an : Int × String) : aggAge oldest an [] = an := rfl

theorem aggAge_cons (oldest : Bool) (an e : Int × String) (rest : List (Int × String)) :
    aggAge oldest an (e :: rest) = aggAge oldest (updStep oldest an e) rest := rfl

theorem okEvalsDs_cons (env : Env) (oldest : Bool) (rules : List MonitorCreation)
    (cache : List (String × List FilesystemVersion)) (d : String) (ds : List String) :
    okEvalsDs env oldest rules cache (d :: ds)
      = okEvalsRules env.now oldest
          (rules.zip (groupSnapshots ((lookupDs cache d).getD []) (rules.map (·.pfx))))
        ++ okEvalsDs env oldest rules cache ds := rfl

theorem checkCreationDs_age (env : Env) (rules : List MonitorCreation) (ds : List String) :
    ∀ self : SnapCheck, (∀ d ∈ ds, (lookupDs self.datasets d).isSome = true) →
      (checkCreationDs env rules self ds).1.oldest = self.oldest ∧
      (checkCreationDs env rules self ds).1.datasets = self.datasets ∧
      ((checkCreationDs env rules self ds).1.age,
        (checkCreationDs env rules self ds).1.snapName)
        = aggAge self.oldest (self.age, self.snapName)
            (okEvalsDs env self.oldest rules self.datasets ds) := by
  induction ds with
  | nil =>
    intro self _
    exact ⟨rfl, rfl, rfl⟩
  | cons d ds ih =>
    intro self h
    have hd : (lookupDs self.datasets d).isSome = true := h d (by simp)
    obtain ⟨snaps, hsnaps⟩ := Option.isSome_iff_exists.mp hd
    have hsf : snapshotsF env self d = (self, snaps) := by
      unfold snapshotsF
      rw [hsnaps]
    have hcsc : checkSnapsCreation env self d rules
        = runCreationRules env.now d self
            (rules.zip (groupSnapshots snaps (rules.map (·.pfx)))) := by
      unfold checkSnapsCreation
      rw [hsf]
    rw [checkCreationDs_cons, hcsc]
    obtain ⟨ho1, hd1, ha1⟩ := runCreationRules_age env.now d
      (rules.zip (groupSnapshots snaps (rules.map (·.pfx)))) self
    have hcache2 : ∀ x ∈ ds,
        (lookupDs (runCreationRules env.now d self
          (rules.zip (groupSnapshots snaps (rules.map (·.pfx))))).1.datasets x).isSome
          = true := by
      intro x hx
      rw [hd1]
      exact h x (by simp [hx])
    obtain ⟨ho2, hd2, ha2⟩ := ih (runCreationRules env.now d self
      (rules.zip (groupSnapshots snaps (rules.map (·.pfx))))).1 hcache2
    refine ⟨by rw [ho2, ho1], by rw [hd2, hd1], ?_⟩
    rw [ha2, ho1, hd1, ha1]
    rw [okEvalsDs_cons]
    have hlook : (lookupDs self.datasets d).getD [] = snaps := by
      rw [hsnaps]
      rfl
    rw [hlook]
    unfold aggAge
    rw [List.foldl_append]

theorem aggAge_invariant (oldest : Bool) (evs : List (Int × String)) :
    ∀ (a : Int) (n : String), 0 < a → (∀ p ∈ evs, 0 < p.1) →
      ((aggAge oldest (a, n) evs).1
        = if oldest then (evs.map Prod.fst).foldl max a
          else (evs.map Prod.fst).foldl min a) ∧
      (aggAge oldest (a, n) evs = (a, n) ∨ aggAge oldest (a, n) evs ∈ evs) := by
  induction evs with
  | nil =>
    intro a n ha hp
    exact ⟨by cases oldest <;> rfl, Or.inl rfl⟩
  | cons e rest ih =>
    intro a n ha hp
    obtain ⟨d, nm⟩ := e
    have hd : 0 < d := hp (d, nm) (by simp)
    rw [aggAge_cons]
    by_cases hcond : (a = 0 ∨ (oldest = true ∧ d > a) ∨ ((!oldest) = true ∧ d < a))
    · have hstep : updStep oldest (a, n) (d, nm) = (d, nm) := by
        unfold updStep
        exact if_pos hcond
      rw [hstep]
      obtain ⟨h1, h2⟩ := ih d nm hd (fun p hp' => hp p (by simp [hp']))
      constructor
      · rw [h1]
        have hane : a ≠ 0 := by omega
        cases oldest with
        | true =>
          have hda : d > a := by
            rcases hcond with h | h | h
            · exact absurd h hane
            · exact h.2
            · simp at h
          have hmax : max a d = d := by omega
          simp [hmax]
        | false =>
          have hda : d < a := by
            rcases hcond with h | h | h
            · exact absurd h hane
            · simp at h
            · exact h.2
          have hmin : min a d = d := by omega
          simp [hmin]
      · rcases h2 with h | h
        · rw [h]
          simp
        · simp [h]
    · have hstep : updStep oldest (a, n) (d, nm) = (a, n) := by
        unfold updStep
        exact if_neg hcond
      rw [hstep]
      obtain ⟨h1, h2⟩ := ih a n ha (fun p hp' => hp p (by simp [hp']))
      constructor
      · rw [h1]
        push_neg at hcond
        cases oldest with
        | true =>
          have hda : d ≤ a := by
            rcases hcond with ⟨-, h2', -⟩
            have := h2' rfl
            omega
          have hmax : max a d = a := by omega
          simp [hmax]
        | false =>
          have hda : a ≤ d := by
            rcases hcond with ⟨-, -, h3'⟩
            have := h3' rfl
            omega
          have hmin : min a d = a := by omega
          simp [hmin]
      · rcases h2 with h | h
        · rw [h]
          exact Or.inl rfl
        · simp [h]

theorem aggAge_extremum (oldest : Bool) (evs : List (Int × String)) (n0 : String)
    (hpos : ∀ p ∈ evs, 0 < p.1) (hne : evs ≠ []) :
    (aggAge oldest (0, n0) evs).1
        = (if oldest then listMax (evs.map Prod.fst) else listMin (evs.map Prod.fst)) ∧
    aggAge oldest (0, n0) evs ∈ evs := by
  cases evs with
  | nil => exact absurd rfl hne
  | cons e rest =>
    obtain ⟨d, nm⟩ := e
    have hd : 0 < d := hpos (d, nm) (by simp)
    rw [aggAge_cons]
    have hstep : updStep oldest (0, n0) (d, nm) = (d, nm) := by
      unfold updStep
      exact if_pos (Or.inl rfl)
    rw [hstep]
    obtain ⟨h1, h2⟩ := aggAge_invariant oldest rest d nm hd
      (fun p hp' => hpos p (by simp [hp']))
    constructor
    · rw [h1]
      unfold listMax listMin
      cases oldest <;> simp
    · rcases h2 with h | h
      · rw [h]
        simp
      · simp [h]

/-- Age rules for the C2 counterexample and witness. -/
def c2rules : List MonitorCreation :=
  [⟨"a", 0, 100000000000⟩, ⟨"b", 0, 100000000000⟩]

/-- Environment for the C2 counterexample: now is 1000 s. -/
def c2env : Env := ⟨[], [], fun _ => [], 1000000000000⟩

/-- Job for the C2 counterexample: latest-mode rules c2rules. -/
def c2job : JobEnum := ⟨"j2", .push, ⟨c2rules, [], []⟩, fun _ => true⟩

/-- Initial state for the C2 counterexample: latest mode, one dataset with
a snapshot of age exactly 0 s and one of age 5 s. -/
def c2init : SnapCheck :=
  { counts := false, oldest := false, job := "", pfx := "", warn := 0, crit := 0,
    countWarn := 0, countCrit := 0, age := 0, snapCount := 0, snapName := "",
    failed := false,
    datasets := [("t", [⟨"a1", 1000000000000⟩, ⟨"b1", 995000000000⟩])],
    orderedDatasets := some ["t"] }

/-- C2 counterexample: in latest mode both rules evaluate OK with ages
0 s and 5 s, so the claim's run-wide minimum is 0 — but because the code
re-enters the "first OK" branch whenever summary.age is still 0, the
final summary age is 5 s with snapshot b1.  The claimed equality with the
minimum fails at this input. -/
theorem C2_counterexample :
    ((Run c2env c2job c2init).toOption.map fun r => (r.1.age, r.1.snapName))
        = some (5000000000, "b1") ∧
    okEvalsDs c2env false c2rules c2init.datasets ["t"]
        = [(0, "a1"), (5000000000, "b1")] ∧
    listMin ((okEvalsDs c2env false c2rules c2init.datasets ["t"]).map Prod.fst) = 0 ∧
    (5000000000 : Int) ≠ 0 :=
  ⟨rfl, rfl, rfl, by decide⟩

/-- C2 (amended): in age mode each evaluated rule's age d is now minus the
representative snapshot's creation instant truncated to whole seconds (as
collected by okEvalsDs); the run summary (age, name) is exactly the fold
of the code's update rule — take d on the first OK while summary.age is
still 0, or when oldest and d is larger, or when latest and d is smaller —
over the OK evaluations; and provided every OK age is positive and at
least one rule evaluated OK, the final summary age is the maximum (oldest)
respectively minimum (latest) of the OK ages and the summary snapshot name
is the name of an OK evaluation achieving that age. -/
theorem C2_age_summary (env : Env) (rules : List MonitorCreation) (self : SnapCheck)
    (hcache : ∀ d ∈ self.orderedDatasets.getD [],
      (lookupDs self.datasets d).isSome = true)
    (hage0 : self.age = 0)
    (hpos : ∀ p ∈ okEvalsDs env self.oldest rules self.datasets
      (self.orderedDatasets.getD []), 0 < p.1)
    (hne : okEvalsDs env self.oldest rules self.datasets
      (self.orderedDatasets.getD []) ≠ []) :
    ((checkCreationDs env rules self (self.orderedDatasets.getD [])).1.age,
      (checkCreationDs env rules self (self.orderedDatasets.getD [])).1.snapName)
      = aggAge self.oldest (self.age, self.snapName)
          (okEvalsDs env self.oldest rules self.datasets (self.orderedDatasets.getD [])) ∧
    (checkCreationDs env rules self (self.orderedDatasets.getD [])).1.age
      = (if self.oldest then
          listMax ((okEvalsDs env self.oldest rules self.datasets
            (self.orderedDatasets.getD [])).map Prod.fst)
        else
          listMin ((okEvalsDs env self.oldest rules self.datasets
            (self.orderedDatasets.getD [])).map Prod.fst)) ∧
    ((checkCreationDs env rules self (self.orderedDatasets.getD [])).1.age,
      (checkCreationDs env rules self (self.orderedDatasets.getD [])).1.snapName)
      ∈ okEvalsDs env self.oldest rules self.datasets (self.orderedDatasets.getD []) := by
  obtain ⟨-, -, ha⟩ := checkCreationDs_age env rules (self.orderedDatasets.getD []) self hcache
  obtain ⟨h1, h2⟩ := aggAge_extremum self.oldest
    (okEvalsDs env self.oldest rules self.datasets (self.orderedDatasets.getD []))
    self.snapName hpos hne
  rw [hage0] at ha
  refine ⟨by rw [hage0]; exact ha, ?_, ?_⟩
  · have := congrArg Prod.fst ha
    simp only at this
    rw [this, h1]
  · rw [ha]
    exact h2

/-- Environment for the C2 witness: now is 1000 s. -/
def c2wenv : Env := ⟨[], [], fun _ => [], 1000000000000⟩

/-- Initial state for the C2 witness: latest mode, one dataset with
snapshots of age 3 s and 5 s under the two rule patterns. -/
def c2winit : SnapCheck :=
  { counts := false, oldest := false, job := "", pfx := "", warn := 0, crit := 0,
    countWarn := 0, countCrit := 0, age := 0, snapCount := 0, snapName := "",
    failed := false,
    datasets := [("t", [⟨"a1", 997000000000⟩, ⟨"b1", 995000000000⟩])],
    orderedDatasets := some ["t"] }

theorem C2_age_summary_witness :
    (checkCreationDs c2wenv c2rules c2winit (c2winit.orderedDatasets.getD [])).1.age
      = (if c2winit.oldest then
          listMax ((okEvalsDs c2wenv c2winit.oldest c2rules c2winit.datasets
            (c2winit.orderedDatasets.getD [])).map Prod.fst)
        else
          listMin ((okEvalsDs c2wenv c2winit.oldest c2rules c2winit.datasets
            (c2winit.orderedDatasets.getD [])).map Prod.fst)) ∧
    listMin ((okEvalsDs c2wenv c2winit.oldest c2rules c2winit.datasets
      (c2winit.orderedDatasets.getD [])).map Prod.fst) = 3000000000 :=
  ⟨(C2_age_summary c2wenv c2rules c2winit (by decide) rfl (by decide) (by decide)).2.1,
    by decide⟩

/- Claim C6: ordered_datasets is sorted and (for set input) duplicate
free. -/

/-- C6: when jobDatasets resolves (orderedDatasets was nil), the stored
ordered_datasets is the lexicographically sorted permutation of the
resolver output; sortedness always holds, and whenever the resolver
output is a set (no duplicate names, as the inventory guarantees), every
dataset name appears at most once, making ordered_datasets the
sorted-unique projection of the resolver output. -/
theorem C6_sorted_unique (env : Env) (j : JobEnum) (self s1 : SnapCheck)
    (hnone : self.orderedDatasets = none)
    (h : jobDatasets env j self = some s1) :
    ∃ raw, resolveJob env j = some raw ∧
      s1.orderedDatasets = some (sortDatasets raw) ∧
      List.Sorted (· ≤ ·) (sortDatasets raw) ∧
      List.Perm (sortDatasets raw) raw ∧
      (raw.Nodup → (sortDatasets raw).Nodup) := by
  unfold jobDatasets at h
  rw [hnone] at h
  simp only [Option.isSome_none, Bool.false_eq_true, if_false] at h
  rcases hres : resolveJob env j with _ | raw
  · rw [hres] at h
    exact absurd h (by simp)
  · rw [hres] at h
    simp only at h
    injection h with h
    refine ⟨raw, rfl, ?_, ?_, ?_, ?_⟩
    · rw [← h]
    · exact List.sorted_mergeSort' raw
    · exact List.mergeSort_perm raw _
    · intro hnd
      exact ((List.mergeSort_perm raw _).symm.nodup) hnd

/-- Environment for the C6 witness: one listed filesystem. -/
def c6env : Env := ⟨["a"], [], fun _ => [], 0⟩

/-- Job for the C6 witness. -/
def c6job : JobEnum := ⟨"j6", .push, ⟨[], [], []⟩, fun _ => true⟩

/-- Initial state for the C6 witness: not yet resolved. -/
def c6init : SnapCheck :=
  { counts := true, oldest := false, job := "", pfx := "", warn := 0, crit := 0,
    countWarn := 0, countCrit := 0, age := 0, snapCount := 0, snapName := "",
    failed := false, datasets := [], orderedDatasets := none }

/-- Expected state after resolution in the C6 witness. -/
def c6res : SnapCheck :=
  { c6init with orderedDatasets := some ["a"], datasets := [("a", [])] }

unseal List.merge List.mergeSort in
theorem C6_sorted_unique_witness :
    resolveJob c6env c6job = some ["a"] ∧
    c6res.orderedDatasets = some (sortDatasets ["a"]) ∧
    List.Sorted (· ≤ ·) (sortDatasets ["a"]) ∧
    List.Perm (sortDatasets ["a"]) ["a"] ∧
    ((["a"] : List String).Nodup → (sortDatasets ["a"]).Nodup) := by
  obtain ⟨raw, h1, h2, h3, h4, h5⟩ := C6_sorted_unique c6env c6job c6init c6res rfl rfl
  have hraw : raw = ["a"] := by
    rw [show resolveJob c6env c6job = some ["a"] from rfl] at h1
    injection h1 with h1
    exact h1.symm
  subst hraw
  exact ⟨h1, h2, h3, h4, h5⟩

/- Claim C7: root-driven resolution. -/

theorem datasetsFromRootFsGo_mem (rootLen skipN : Nat) :
    ∀ (props : List (String × PropDetails)) (out : List String),
      datasetsFromRootFsGo rootLen skipN props = some out →
      ∀ fs, fs ∈ out ↔ ∃ pd, (fs, pd) ∈ props ∧
        (∃ path, NewDatasetPath fs = some path ∧ rootLen + 1 + skipN ≤ path.length) ∧
        ¬(pd.source = PropertySource.SourceLocal ∧ pd.value = "on") := by
  intro props
  induction props with
  | nil =>
    intro out h fs
    injection h with h
    simp [← h]
  | cons hd rest ih =>
    intro out h fs
    obtain ⟨f0, p0⟩ := hd
    unfold datasetsFromRootFsGo at h
    rcases hpath : NewDatasetPath f0 with _ | path
    · rw [hpath] at h
      exact absurd h (by simp)
    · rw [hpath] at h
      simp only at h
      by_cases hlen : path.length < rootLen + 1 + skipN
      · rw [if_pos hlen] at h
        rw [ih out h fs]
        constructor
        · intro ⟨pd, hmem, hdep, hph⟩
          exact ⟨pd, List.mem_cons_of_mem _ hmem, hdep, hph⟩
        · intro ⟨pd, hmem, hdep, hph⟩
          rcases List.mem_cons.mp hmem with heq | hmem'
          · exfalso
            obtain ⟨path', hp', hlen'⟩ := hdep
            have hfs : fs = f0 := congrArg Prod.fst heq
            rw [hfs, hpath] at hp'
            injection hp' with hp'
            rw [← hp'] at hlen'
            omega
          · exact ⟨pd, hmem', hdep, hph⟩
      · rw [if_neg hlen] at h
        by_cases hph0 : p0.source = PropertySource.SourceLocal ∧ p0.value = "on"
        · rw [if_pos hph0] at h
          rw [ih out h fs]
          constructor
          · intro ⟨pd, hmem, hdep, hph⟩
            exact ⟨pd, List.mem_cons_of_mem _ hmem, hdep, hph⟩
          · intro ⟨pd, hmem, hdep, hph⟩
            rcases List.mem_cons.mp hmem with heq | hmem'
            · exfalso
              have hpd : pd = p0 := congrArg Prod.snd heq
              rw [hpd] at hph
              exact hph hph0
            · exact ⟨pd, hmem', hdep, hph⟩
        · rw [if_neg hph0] at h
          rcases hrest : datasetsFromRootFsGo rootLen skipN rest with _ | out'
          · rw [hrest] at h
            exact absurd h (by simp)
          · rw [hrest] at h
            have h2 : some (f0 :: out') = some out := h
            injection h2 with h
            rw [← h]
            simp only [List.mem_cons]
            constructor
            · intro hm
              rcases hm with heq | hm'
              · subst heq
                exact ⟨p0, Or.inl rfl, ⟨path, hpath, by omega⟩, hph0⟩
              · obtain ⟨pd, hmem, hdep, hph⟩ := (ih out' hrest fs).mp hm'
                exact ⟨pd, Or.inr hmem, hdep, hph⟩
            · intro ⟨pd, hmem, hdep, hph⟩
              rcases hmem with heq | hmem'
              · exact Or.inl (congrArg Prod.fst heq)
              · exact Or.inr ((ih out' hrest fs).mpr ⟨pd, hmem', hdep, hph⟩)

/-- C7: pull jobs resolve with skip 0 and sink jobs with skip 1; and for
any recursive property fetch, datasetsFromRootFs retains exactly the
fetched datasets whose segment count is at least root.length + 1 + skip
and whose placeholder property is not the literal value on with source
local. -/
theorem C7_root_resolution :
    (∀ (env : Env) (nm rootFs : String) (mon : MonitorSnapshots) (f : String → Bool),
      resolveJob env ⟨nm, .pull rootFs, mon, f⟩
        = datasetsFromRootFs env.propsByFS rootFs 0) ∧
    (∀ (env : Env) (nm rootFs : String) (mon : MonitorSnapshots) (f : String → Bool),
      resolveJob env ⟨nm, .sink rootFs, mon, f⟩
        = datasetsFromRootFs env.propsByFS rootFs 1) ∧
    (∀ (props : List (String × PropDetails)) (rootFs : String) (skipN : Nat)
        (rp : List String) (out : List String),
      NewDatasetPath rootFs = some rp →
      datasetsFromRootFs props rootFs skipN = some out →
      ∀ fs, fs ∈ out ↔ ∃ pd, (fs, pd) ∈ props ∧
        (∃ path, NewDatasetPath fs = some path ∧ rp.length + 1 + skipN ≤ path.length) ∧
        ¬(pd.source = PropertySource.SourceLocal ∧ pd.value = "on")) := by
  refine ⟨fun _ _ _ _ _ => rfl, fun _ _ _ _ _ => rfl, ?_⟩
  intro props rootFs skipN rp out hroot h fs
  unfold datasetsFromRootFs at h
  rw [hroot] at h
  exact datasetsFromRootFsGo_mem rp.length skipN props out h fs

/-- Property fetch for the C7 witness: a too-shallow dataset, a
placeholder, and a real dataset under root r. -/
def c7props : List (String × PropDetails) :=
  [("r", ⟨"-", .SourceOther⟩),
   ("r/c/ph", ⟨"on", .SourceLocal⟩),
   ("r/c/k", ⟨"off", .SourceOther⟩)]

theorem C7_root_resolution_witness :
    NewDatasetPath "r" = some ["r"] ∧
    datasetsFromRootFs c7props "r" 1 = some ["r/c/k"] ∧
    (("r/c/k" ∈ ["r/c/k"]) ↔ ∃ pd, ("r/c/k", pd) ∈ c7props ∧
      (∃ path, NewDatasetPath "r/c/k" = some path ∧ (["r"] : List String).length + 1 + 1 ≤ path.length) ∧
      ¬(pd.source = PropertySource.SourceLocal ∧ pd.value = "on")) := by
  refine ⟨by decide, by decide, ?_⟩
  exact C7_root_resolution.2.2 c7props "r" 1 ["r"] ["r/c/k"]
    (by decide) (by decide) "r/c/k"

/- Claim C8: CLI override and the empty-rules error. -/

/-- C8: a non-empty CLI pattern override replaces the rule list by the
singleton built from it (count thresholds in count mode, duration
thresholds in age mode); otherwise the configured list is used; and an
empty configured list without an override makes the run fail with the
error "no monitor rules or cli args defined" with no status update
emitted (the evaluation returns the error before touching the sink). -/
theorem C8_override_rules (env : Env) (self : SnapCheck)
    (cfgC : List MonitorCount) (cfgA : List MonitorCreation) :
    (self.pfx ≠ "" →
      self.overrideCountRules cfgC = .ok [⟨self.pfx, self.countWarn, self.countCrit⟩] ∧
      self.overrideAgeRules cfgA = .ok [⟨self.pfx, self.warn, self.crit⟩]) ∧
    (self.pfx = "" → cfgC ≠ [] → self.overrideCountRules cfgC = .ok cfgC) ∧
    (self.pfx = "" → cfgA ≠ [] → self.overrideAgeRules cfgA = .ok cfgA) ∧
    (self.pfx = "" →
      self.overrideCountRules [] = .error "no monitor rules or cli args defined" ∧
      self.overrideAgeRules [] = .error "no monitor rules or cli args defined" ∧
      checkCounts env self [] = .error "no monitor rules or cli args defined" ∧
      checkCreation env self [] = .error "no monitor rules or cli args defined") := by
  refine ⟨?_, ?_, ?_, ?_⟩
  · intro hp
    constructor
    · unfold SnapCheck.overrideCountRules
      rw [if_pos hp]
    · unfold SnapCheck.overrideAgeRules
      rw [if_pos hp]
  · intro hp hc
    unfold SnapCheck.overrideCountRules
    rw [if_neg (by simp [hp]), if_neg hc]
  · intro hp hc
    unfold SnapCheck.overrideAgeRules
    rw [if_neg (by simp [hp]), if_neg hc]
  · intro hp
    have h1 : self.overrideCountRules [] = .error "no monitor rules or cli args defined" := by
      unfold SnapCheck.overrideCountRules
      rw [if_neg (by simp [hp]), if_pos rfl]
    have h2 : self.overrideAgeRules [] = .error "no monitor rules or cli args defined" := by
      unfold SnapCheck.overrideAgeRules
      rw [if_neg (by simp [hp]), if_pos rfl]
    refine ⟨h1, h2, ?_, ?_⟩
    · unfold checkCounts
      rw [h1]
    · unfold checkCreation
      rw [h2]

/-- A state with no CLI override, for the C8 witness. -/
def c8self : SnapCheck :=
  { counts := true, oldest := false, job := "", pfx := "", warn := 7, crit := 9,
    countWarn := 1, countCrit := 2, age := 0, snapCount := 0, snapName := "",
    failed := false, datasets := [], orderedDatasets := some [] }

/-- A state with a CLI override, for the C8 witness. -/
def c8ov : SnapCheck := { c8self with pfx := "x" }

theorem C8_override_rules_witness :
    (c8ov.overrideCountRules [⟨"y", 3, 4⟩] = .ok [⟨"x", 1, 2⟩] ∧
      c8ov.overrideAgeRules [] = .ok [⟨"x", 7, 9⟩]) ∧
    c8self.overrideCountRules [⟨"y", 3, 4⟩] = .ok [⟨"y", 3, 4⟩] ∧
    checkCounts c1env c8self [] = .error "no monitor rules or cli args defined" ∧
    checkCreation c1env c8self [] = .error "no monitor rules or cli args defined" :=
  ⟨(C8_override_rules c1env c8ov [⟨"y", 3, 4⟩] []).1 (by decide),
    (C8_override_rules c1env c8self [⟨"y", 3, 4⟩] []).2.1 rfl (by decide),
    ((C8_override_rules c1env c8self [] []).2.2.2 rfl).2.2.1,
    ((C8_override_rules c1env c8self [] []).2.2.2 rfl).2.2.2⟩

/- Claim C9: Reset clears exactly the verdict state, and re-evaluation
over the same cache repeats the run. -/

/-- The fields of the checker that evaluation must not change:
configuration, job name, dataset cache and resolution order. -/
def cfgOf (a : SnapCheck) :
    Bool × Bool × String × String × Int × Int × Nat × Nat ×
      List (String × List FilesystemVersion) × Option (List String) :=
  (a.counts, a.oldest, a.job, a.pfx, a.warn, a.crit, a.countWarn, a.countCrit,
    a.datasets, a.orderedDatasets)

theorem datasets_eq_of_cfgOf {a b : SnapCheck} (h : cfgOf a = cfgOf b) :
    a.datasets = b.datasets :=
  congrArg (fun t => t.2.2.2.2.2.2.2.2.1) h

theorem cfg_applyCountRule (self : SnapCheck) (r : MonitorCount) (fsName : String)
    (g : groupItem) : cfgOf (self.applyCountRule r fsName g).2.1 = cfgOf self := by
  unfold SnapCheck.applyCountRule
  by_cases h1 : g.Count = 0 ∧ r.pfx = ""
  · rw [if_pos h1]
  · rw [if_neg h1]
    by_cases h2 : g.Count = 0
    · rw [if_pos h2]
    · rw [if_neg h2]
      by_cases h3 : g.Count ≥ r.Critical
      · rw [if_pos h3]
        rfl
      · rw [if_neg h3]
        by_cases h4 : r.Warning > 0 ∧ g.Count ≥ r.Warning
        · rw [if_pos h4]
          rfl
        · rw [if_neg h4]
          rfl

theorem cfg_runCountRules (fsName : String) (L : List (MonitorCount × groupItem)) :
    ∀ self : SnapCheck, cfgOf (runCountRules fsName self L).1 = cfgOf self := by
  induction L with
  | nil => exact fun self => rfl
  | cons hd rest ih =>
    intro self
    obtain ⟨r, g⟩ := hd
    have happ := cfg_applyCountRule self r fsName g
    unfold runCountRules
    rcases hres : self.applyCountRule r fsName g with ⟨flag, s1, us⟩
    rw [hres] at happ
    cases flag with
    | true => exact (ih s1).trans happ
    | false => exact happ

theorem cfg_applyCreationRule (now : Int) (self : SnapCheck) (r : MonitorCreation)
    (snap : Option FilesystemVersion) (fsName : String) :
    cfgOf (self.applyCreationRule now r snap fsName).2.1 = cfgOf self := by
  unfold SnapCheck.applyCreationRule
  cases snap with
  | none =>
    by_cases h1 : r.pfx = ""
    · rw [if_pos h1]
    · rw [if_neg h1]
  | some s =>
    by_cases h2 : truncSecond (now - s.Creation) ≥ r.Critical
    · simp only [if_pos h2]
      rfl
    · simp only [if_neg h2]
      by_cases h3 : r.Warning > 0 ∧ truncSecond (now - s.Creation) ≥ r.Warning
      · simp only [if_pos h3]
        rfl
      · simp only [if_neg h3]
        by_cases h4 : self.age = 0 ∨ (self.oldest ∧ truncSecond (now - s.Creation) > self.age)
            ∨ (!self.oldest ∧ truncSecond (now - s.Creation) < self.age)
        · simp only [if_pos h4]
          rfl
        · simp only [if_neg h4]

theorem cfg_runCreationRules (now : Int) (fsName : String)
    (L : List (MonitorCreation × groupItem)) :
    ∀ self : SnapCheck, cfgOf (runCreationRules now fsName self L).1 = cfgOf self := by
  induction L with
  | nil => exact fun self => rfl
  | cons hd rest ih =>
    intro self
    obtain ⟨r, g⟩ := hd
    have happ := cfg_applyCreationRule now self r (g.Snapshot self.oldest) fsName
    unfold runCreationRules
    rcases hres : self.applyCreationRule now r (g.Snapshot self.oldest) fsName
      with ⟨flag, s1, us⟩
    rw [hres] at happ
    cases flag with
    | true => exact (ih s1).trans happ
    | false => exact happ

theorem snapshotsF_hit (env : Env) (self : SnapCheck) (fsName : String)
    (h : (lookupDs self.datasets fsName).isSome = true) :
    snapshotsF env self fsName = (self, (lookupDs self.datasets fsName).getD []) := by
  obtain ⟨snaps, hsnaps⟩ := Option.isSome_iff_exists.mp h
  unfold snapshotsF
  rw [hsnaps]
  rfl

theorem cfg_checkSnapsCounts (env : Env) (self : SnapCheck) (fsName : String)
    (rules : List MonitorCount)
    (h : (lookupDs self.datasets fsName).isSome = true) :
    cfgOf (checkSnapsCounts env self fsName rules).1 = cfgOf self := by
  have h1 := cfg_runCountRules fsName
    (rules.zip (groupSnapshots (snapshotsF env self fsName).2 (rules.map (·.pfx))))
    (snapshotsF env self fsName).1
  have h2 : (snapshotsF env self fsName).1 = self := by
    rw [snapshotsF_hit env self fsName h]
  calc cfgOf (checkSnapsCounts env self fsName rules).1
      = cfgOf (snapshotsF env self fsName).1 := h1
    _ = cfgOf self := by rw [h2]

theorem cfg_checkSnapsCreation (env : Env) (self : SnapCheck) (fsName : String)
    (rules : List MonitorCreation)
    (h : (lookupDs self.datasets fsName).isSome = true) :
    cfgOf (checkSnapsCreation env self fsName rules).1 = cfgOf self := by
  have h1 := cfg_runCreationRules env.now fsName
    (rules.zip (groupSnapshots (snapshotsF env self fsName).2 (rules.map (·.pfx))))
    (snapshotsF env self fsName).1
  have h2 : (snapshotsF env self fsName).1 = self := by
    rw [snapshotsF_hit env self fsName h]
  calc cfgOf (checkSnapsCreation env self fsName rules).1
      = cfgOf (snapshotsF env self fsName).1 := h1
    _ = cfgOf self := by rw [h2]

theorem cfg_checkCountsDs (env : Env) (rules : List MonitorCount) (ds : List String) :
    ∀ self : SnapCheck, (∀ d ∈ ds, (lookupDs self.datasets d).isSome = true) →
      cfgOf (checkCountsDs env rules self ds).1 = cfgOf self := by
  induction ds with
  | nil => exact fun self _ => rfl
  | cons d ds ih =>
    intro self h
    have h1 := cfg_checkSnapsCounts env self d rules (h d (by simp))
    have hds : (checkSnapsCounts env self d rules).1.datasets = self.datasets :=
      datasets_eq_of_cfgOf h1
    have h2 := ih (checkSnapsCounts env self d rules).1 (by
      intro x hx
      rw [hds]
      exact h x (by simp [hx]))
    rw [checkCountsDs_cons]
    exact h2.trans h1

theorem cfg_checkCreationDs (env : Env) (rules : List MonitorCreation) (ds : List String) :
    ∀ self : SnapCheck, (∀ d ∈ ds, (lookupDs self.datasets d).isSome = true) →
      cfgOf (checkCreationDs env rules self ds).1 = cfgOf self := by
  induction ds with
  | nil => exact fun self _ => rfl
  | cons d ds ih =>
    intro self h
    have h1 := cfg_checkSnapsCreation env self d rules (h d (by simp))
    have hds : (checkSnapsCreation env self d rules).1.datasets = self.datasets :=
      datasets_eq_of_cfgOf h1
    have h2 := ih (checkSnapsCreation env self d rules).1 (by
      intro x hx
      rw [hds]
      exact h x (by simp [hx]))
    rw [checkCreationDs_cons]
    exact h2.trans h1

theorem run_cfg (env : Env) (j : JobEnum) (self s : SnapCheck) (us : List Update)
    (hord : self.orderedDatasets.isSome = true)
    (hcache : ∀ d ∈ self.orderedDatasets.getD [],
      (lookupDs self.datasets d).isSome = true)
    (h : Run env j self = .ok (s, us)) :
    cfgOf s = cfgOf { self with job := j.name } := by
  unfold Run at h
  have hjd : jobDatasets env j { self with job := j.name }
      = some { self with job := j.name } := by
    unfold jobDatasets
    rw [if_pos hord]
  rw [hjd] at h
  simp only at h
  split at h
  · unfold checkCounts at h
    rcases hov : SnapCheck.overrideCountRules { self with job := j.name } j.monitor.Count
      with e | rules
    · rw [hov] at h
      exact absurd h (by simp)
    · rw [hov] at h
      simp only at h
      injection h with h
      have hc := cfg_checkCountsDs env rules
        (({ self with job := j.name } : SnapCheck).orderedDatasets.getD [])
        { self with job := j.name } hcache
      rw [h] at hc
      exact hc
  · unfold checkCreation at h
    rcases hov : SnapCheck.overrideAgeRules { self with job := j.name }
      (rulesByCreation j ({ self with job := j.name } : SnapCheck).oldest) with e | rules
    · rw [hov] at h
      exact absurd h (by simp)
    · rw [hov] at h
      simp only at h
      injection h with h
      have hc := cfg_checkCreationDs env rules
        (({ self with job := j.name } : SnapCheck).orderedDatasets.getD [])
        { self with job := j.name } hcache
      rw [h] at hc
      exact hc

/-- C9: Reset clears exactly the accumulated verdict state (age,
snapCount, snapName, failed) and leaves every other field unchanged, in
particular the dataset cache and ordered_datasets; consequently, for a
Loaded run (resolution done, cache complete) that started from cleared
verdict state, Reset returns the evaluated state to the starting state —
so a subsequent Run skips resolution and preloading and yields the
identical result, in particular the identical sequence of sink updates. -/
theorem C9_reset_frame (env : Env) (j : JobEnum) (self s : SnapCheck) (us : List Update)
    (x : SnapCheck)
    (hage : self.age = 0) (hsc : self.snapCount = 0) (hsn : self.snapName = "")
    (hf : self.failed = false) (hjob : self.job = j.name)
    (hord : self.orderedDatasets.isSome = true)
    (hcache : ∀ d ∈ self.orderedDatasets.getD [],
      (lookupDs self.datasets d).isSome = true)
    (h : Run env j self = .ok (s, us)) :
    (x.Reset.age = 0 ∧ x.Reset.snapCount = 0 ∧ x.Reset.snapName = "" ∧
      x.Reset.failed = false ∧ x.Reset.counts = x.counts ∧ x.Reset.oldest = x.oldest ∧
      x.Reset.job = x.job ∧ x.Reset.pfx = x.pfx ∧ x.Reset.warn = x.warn ∧
      x.Reset.crit = x.crit ∧ x.Reset.countWarn = x.countWarn ∧
      x.Reset.countCrit = x.countCrit ∧ x.Reset.datasets = x.datasets ∧
      x.Reset.orderedDatasets = x.orderedDatasets) ∧
    s.Reset = self ∧
    Run env j s.Reset = .ok (s, us) := by
  have hc := run_cfg env j self s us hord hcache h
  have hreset : s.Reset = self := by
    obtain ⟨c1, o1, j1, p1, w1, cr1, cw1, cc1, a1, sc1, sn1, f1, d1, od1⟩ := s
    obtain ⟨c2, o2, j2, p2, w2, cr2, cw2, cc2, a2, sc2, sn2, f2, d2, od2⟩ := self
    simp only [cfgOf, Prod.mk.injEq] at hc
    obtain ⟨hc1, hc2, hc3, hc4, hc5, hc6, hc7, hc8, hc9, hc10⟩ := hc
    unfold SnapCheck.Reset
    simp only [SnapCheck.mk.injEq]
    exact ⟨hc1, hc2, hc3.trans hjob.symm, hc4, hc5, hc6, hc7, hc8, hage.symm,
      hsc.symm, hsn.symm, hf.symm, hc9, hc10⟩
  refine ⟨⟨rfl, rfl, rfl, rfl, rfl, rfl, rfl, rfl, rfl, rfl, rfl, rfl, rfl, rfl⟩,
    hreset, ?_⟩
  rw [hreset]
  exact h

/-- Environment for the C9 witness. -/
def c9env : Env := ⟨[], [], fun _ => [], 10⟩

/-- Job for the C9 witness. -/
def c9job : JobEnum := ⟨"j9", .snap, ⟨[], [], []⟩, fun _ => true⟩

/-- Loaded, cleared state for the C9 witness: count mode, one cached
dataset with one matching snapshot. -/
def c9init : SnapCheck :=
  { counts := true, oldest := false, job := "j9", pfx := "s", warn := 0, crit := 0,
    countWarn := 0, countCrit := 5, age := 0, snapCount := 0, snapName := "",
    failed := false, datasets := [("tank/a", [⟨"s1", 3⟩])],
    orderedDatasets := some ["tank/a"] }

/-- Evaluated state for the C9 witness. -/
def c9res : SnapCheck := { c9init with snapCount := 1 }

theorem C9_reset_frame_witness :
    c9res.Reset = c9init ∧ Run c9env c9job c9res.Reset = .ok (c9res, []) :=
  ⟨(C9_reset_frame c9env c9job c9init c9res [] c9init rfl rfl rfl rfl rfl rfl
      (by decide) rfl).2.1,
   (C9_reset_frame c9env c9job c9init c9res [] c9init rfl rfl rfl rfl rfl rfl
      (by decide) rfl).2.2⟩

end ZreplMonitor

